import Mathlib

/-!
# Lumora Studio Pro — verification of the render core

A shallow embedding, over `ℚ`, of the WebGL image renderer
(`WebGLImageRenderer`: fragment-shader pixel pipeline, curve-LUT builder,
uniform upload, mask compositing control flow) and of the mask rasterizer
(`MaskRasterizer`).  Numeric JS/GLSL values are modelled as exact rationals;
transcendental GPU primitives (`pow(2,·)`, `sqrt`, the `sin`-based noise)
are abstracted as function parameters, since no claim depends on their
numeric values.
-/

namespace Lumora

/-- GLSL `clamp(x, lo, hi)` / JS min-max clamping. -/
def clampQ (lo hi x : ℚ) : ℚ := max lo (min hi x)

/-- `clamp(x, 0.0, 1.0)`. -/
def clamp01 (x : ℚ) : ℚ := clampQ 0 1 x

/-- JS `Math.round`: round half toward `+∞`. -/
def jsRound (x : ℚ) : ℤ := ⌊x + 1/2⌋

/-- GLSL `smoothstep(e0, e1, x)` (and the identical TS helper in
`MaskRasterizer.ts`): clamp the linear parameter, then `t²(3−2t)`. -/
def smoothstepG (e0 e1 x : ℚ) : ℚ :=
  let t := clamp01 ((x - e0) / (e1 - e0))
  t * t * (3 - 2 * t)

theorem clampQ_eq_self {lo hi x : ℚ} (h0 : lo ≤ x) (h1 : x ≤ hi) :
    clampQ lo hi x = x := by
  unfold clampQ
  rw [min_eq_right h1, max_eq_right h0]

theorem clamp01_eq_self {x : ℚ} (h0 : 0 ≤ x) (h1 : x ≤ 1) : clamp01 x = x :=
  clampQ_eq_self h0 h1

/-! ## Curve LUT builder (`updateCurveLUT`, `initCurveLUT`) -/

/-- One tone-curve control point (`{ x, y }`). -/
structure CurvePoint where
  x : ℚ
  y : ℚ
deriving DecidableEq

/-- Stable insertion step for `[...points].sort((a, b) => a.x - b.x)`. -/
def insertByX (p : CurvePoint) : List CurvePoint → List CurvePoint
  | [] => [p]
  | q :: qs => if p.x < q.x then p :: q :: qs else q :: insertByX p qs

/-- `[...points].sort((a, b) => a.x - b.x)` — stable sort by `x`. -/
def sortByX (l : List CurvePoint) : List CurvePoint :=
  l.foldl (fun acc p => insertByX p acc) []

/-- The bracket-search loop in `updateCurveLUT`: first adjacent pair
`(sorted[j], sorted[j+1])` with `sorted[j].x ≤ x ≤ sorted[j+1].x`. -/
def findBracket (x : ℚ) : List CurvePoint → Option (CurvePoint × CurvePoint)
  | p :: q :: rest =>
      if p.x ≤ x ∧ x ≤ q.x then some (p, q) else findBracket x (q :: rest)
  | _ => none

/-- One LUT level of `updateCurveLUT` (the `length ≥ 2` branch):
`x = i/255`, bracket (defaulting to first/last point), linear parameter
guarded by `range > 0`, smoothstep, lerp of `y`, then
`Math.max(0, Math.min(255, Math.round(y * 255)))`. -/
def curveLevel (sorted : List CurvePoint) (i : ℕ) : ℤ :=
  let x : ℚ := (i : ℚ) / 255
  let dflt : CurvePoint × CurvePoint := (sorted.headD ⟨0, 0⟩, sorted.getLastD ⟨0, 0⟩)
  let br := (findBracket x sorted).getD dflt
  let range := br.2.x - br.1.x
  let t := if 0 < range then (x - br.1.x) / range else 0
  let smooth := t * t * (3 - 2 * t)
  let y := br.1.y + (br.2.y - br.1.y) * smooth
  max 0 (min 255 (jsRound (y * 255)))

/-- `updateCurveLUT`: 256-entry table; identity when fewer than 2 points,
otherwise interpolation over the sorted points. -/
def updateCurveLUT (points : List CurvePoint) : List ℤ :=
  if points.length < 2 then (List.range 256).map (fun i : ℕ => (i : ℤ))
  else (List.range 256).map (curveLevel (sortByX points))

/-- The `hasCustomCurve` test in `renderWithEdits`:
`curvePoints && curvePoints.length >= 2 && curvePoints.some(|x−y| > 0.5)`. -/
def hasCustomCurve (pts : Option (List CurvePoint)) : Bool :=
  match pts with
  | none => false
  | some ps => decide (2 ≤ ps.length) && ps.any (fun p => decide ((1:ℚ)/2 < |p.x - p.y|))

/-- The `u_curveEnabled` uniform: `hasCustomCurve ? 1.0 : 0.0`. -/
def curveEnabledUniform (pts : Option (List CurvePoint)) : ℚ :=
  if hasCustomCurve pts then 1 else 0

/-- C10 helper: a `max 0 (min 255 ·)` result is always in `[0, 255]`. -/
theorem clampInt_mem (z : ℤ) : 0 ≤ max 0 (min 255 z) ∧ max 0 (min 255 z) ≤ 255 :=
  ⟨le_max_left 0 _, max_le (by norm_num) (min_le_left 255 z)⟩

/-- C10: every entry of the LUT built by `updateCurveLUT` is an integer in
`[0, 255]`, for every control-point list (any length, order or values). -/
theorem updateCurveLUT_entries_bounded (points : List CurvePoint) :
    ∀ v ∈ updateCurveLUT points, 0 ≤ v ∧ v ≤ 255 := by
  intro v hv
  unfold updateCurveLUT at hv
  split at hv
  · obtain ⟨i, hi, rfl⟩ := List.mem_map.mp hv
    simp only [List.mem_range] at hi
    refine ⟨Int.natCast_nonneg i, ?_⟩
    exact_mod_cast Nat.lt_succ_iff.mp hi
  · obtain ⟨i, _, rfl⟩ := List.mem_map.mp hv
    unfold curveLevel
    exact clampInt_mem _

/-- C10 witness: the bound applied at a concrete (unsorted, 3-point)
control-point list and the table entry for level 0. -/
theorem updateCurveLUT_entries_bounded_witness :
    0 ≤ curveLevel (sortByX [⟨200, 30⟩, ⟨0, 999⟩, ⟨-5, -7⟩]) 0 ∧
      curveLevel (sortByX [⟨200, 30⟩, ⟨0, 999⟩, ⟨-5, -7⟩]) 0 ≤ 255 := by
  have hmem : curveLevel (sortByX [⟨200, 30⟩, ⟨0, 999⟩, ⟨-5, -7⟩]) 0 ∈
      updateCurveLUT [⟨200, 30⟩, ⟨0, 999⟩, ⟨-5, -7⟩] := by
    rw [updateCurveLUT, if_neg (by norm_num)]
    exact List.mem_map.mpr ⟨0, by simp, rfl⟩
  exact updateCurveLUT_entries_bounded _ _ hmem

theorem sortByX_pair :
    sortByX [(⟨0, 0⟩ : CurvePoint), ⟨255, 255⟩] = [⟨0, 0⟩, ⟨255, 255⟩] := by
  unfold sortByX
  simp only [List.foldl]
  rw [insertByX, insertByX, if_neg (by norm_num), insertByX]

theorem findBracket_pair {x : ℚ} (h0 : 0 ≤ x) (h1 : x ≤ 255) :
    findBracket x [(⟨0, 0⟩ : CurvePoint), ⟨255, 255⟩] = some (⟨0, 0⟩, ⟨255, 255⟩) := by
  rw [findBracket, if_pos ⟨h0, h1⟩]

/-- Closed form of the table level at `(0,0),(255,255)`: the builder sees
`x = i/255 ∈ [0,1]` inside the 255-wide bracket, so `t = i/65025` and the
output is `⌊65025·t²(3−2t) + 1/2⌋` — at most 3 for every level. -/
theorem curveLevel_identityPts_le_three (i : ℕ) (hi : i < 256) :
    curveLevel [⟨0, 0⟩, ⟨255, 255⟩] i ≤ 3 := by
  have hq : ((i : ℚ)) ≤ 255 := by exact_mod_cast Nat.lt_succ_iff.mp hi
  have hq0 : (0 : ℚ) ≤ (i : ℚ) := Nat.cast_nonneg i
  have h0 : (0 : ℚ) ≤ (i : ℚ) / 255 := by positivity
  have hle : ((i : ℚ) / 255) ≤ 255 := by
    rw [div_le_iff₀ (by norm_num)]
    linarith
  simp only [curveLevel, findBracket_pair h0 hle, Option.getD_some, sub_zero, zero_add,
    if_pos (show (0 : ℚ) < 255 by norm_num)]
  set t : ℚ := (i : ℚ) / 255 / 255 with ht
  have ht0 : 0 ≤ t := by rw [ht]; positivity
  have ht1 : t ≤ 1 / 255 := by
    rw [ht, div_le_div_iff₀ (by norm_num) (by norm_num)]
    linarith
  have hfl : jsRound (255 * (t * t * (3 - 2 * t)) * 255) ≤ 3 := by
    unfold jsRound
    rw [Int.floor_le_iff]
    push_cast
    nlinarith
  apply max_le (by norm_num)
  exact le_trans (min_le_right 255 _) hfl

/-- Level 255 of the `(0,0),(255,255)` table evaluates to exactly 3. -/
theorem curveLevel_identityPts_255 :
    curveLevel [⟨0, 0⟩, ⟨255, 255⟩] 255 = 3 := by
  have h0 : (0 : ℚ) ≤ ((255 : ℕ) : ℚ) / 255 := by positivity
  have hle : (((255 : ℕ) : ℚ) / 255) ≤ 255 := by push_cast; norm_num
  simp only [curveLevel, findBracket_pair h0 hle, Option.getD_some, sub_zero, zero_add,
    if_pos (show (0 : ℚ) < 255 by norm_num)]
  have harg : (255 : ℚ) * (((255 : ℕ) : ℚ) / 255 / 255 * (((255 : ℕ) : ℚ) / 255 / 255) *
      (3 - 2 * (((255 : ℕ) : ℚ) / 255 / 255))) * 255 = 763 / 255 := by
    push_cast
    norm_num
  rw [harg]
  have hj : jsRound (763 / 255) = 3 := by
    unfold jsRound
    rw [Int.floor_eq_iff]
    constructor <;> norm_num
  rw [hj]
  norm_num

/-- C1 counterexample: for control points `[(0,0),(255,255)]` (the
coordinate space the edit store and curve editor actually use), entry 255
of the LUT built by `updateCurveLUT` is 3, not within ±1 of 255. -/
theorem curveLUT_identity_fails :
    (updateCurveLUT [⟨0, 0⟩, ⟨255, 255⟩]).getD 255 0 = 3 ∧
      ¬ ((updateCurveLUT [⟨0, 0⟩, ⟨255, 255⟩]).getD 255 0 - 255).natAbs ≤ 1 := by
  have h : (updateCurveLUT [⟨0, 0⟩, ⟨255, 255⟩]).getD 255 0 = 3 := by
    rw [updateCurveLUT, if_neg (by norm_num), sortByX_pair]
    rw [List.getD_eq_getElem?_getD, List.getElem?_map, List.getElem?_range (by norm_num)]
    simpa using curveLevel_identityPts_255
  refine ⟨h, ?_⟩
  rw [h]
  decide

/-- C1 (amended): `updateCurveLUT` yields the exact identity table only on
the fewer-than-2-points branch; on `[(0,0),(255,255)]` every entry is at
most 3 (the builder reads `x` as a fraction of `[0,1]` and scales `y` by
255 a second time), so the table is far from the identity. -/
theorem curveLUT_identity_amended :
    updateCurveLUT [] = (List.range 256).map (fun i : ℕ => (i : ℤ)) ∧
      (updateCurveLUT [⟨0, 0⟩, ⟨255, 255⟩]).all (fun v => decide (v ≤ 3)) = true := by
  refine ⟨rfl, ?_⟩
  rw [List.all_eq_true]
  intro v hv
  rw [updateCurveLUT, if_neg (by norm_num), sortByX_pair] at hv
  simp only [List.mem_map, List.mem_range] at hv
  obtain ⟨i, hi, rfl⟩ := hv
  simpa using curveLevel_identityPts_le_three i hi

/-- C5: the LUT lookup is bypassed (`u_curveEnabled ≤ 0.5`, so the shader
branch `u_curveEnabled > 0.5` is not taken) exactly when the control-point
list has fewer than 2 points or every point satisfies `|x−y| ≤ 0.5`. -/
theorem curveLUT_bypass_iff (pts : List CurvePoint) :
    curveEnabledUniform (some pts) ≤ 1/2 ↔
      (pts.length < 2 ∨ ∀ p ∈ pts, |p.x - p.y| ≤ 1/2) := by
  unfold curveEnabledUniform hasCustomCurve
  by_cases hb : (decide (2 ≤ pts.length) &&
      pts.any fun p => decide ((1:ℚ)/2 < |p.x - p.y|)) = true
  · rw [if_pos hb]
    simp only [Bool.and_eq_true, decide_eq_true_eq, List.any_eq_true] at hb
    obtain ⟨hlen, p, hp, habs⟩ := hb
    constructor
    · intro h
      norm_num at h
    · intro h
      rcases h with h | h
      · omega
      · exact absurd (h p hp) (not_le.mpr habs)
  · rw [if_neg hb]
    have hb2 : pts.length < 2 ∨ ∀ p ∈ pts, |p.x - p.y| ≤ 1/2 := by
      by_cases hlen : 2 ≤ pts.length
      · refine Or.inr fun p hp => ?_
        by_contra hc
        refine hb ?_
        rw [Bool.and_eq_true]
        exact ⟨decide_eq_true hlen,
          List.any_eq_true.mpr ⟨p, hp, decide_eq_true (not_le.mp hc)⟩⟩
      · exact Or.inl (by omega)
    exact ⟨fun _ => hb2, fun _ => by norm_num⟩

/-- C5 witness: the bypass test applied at the concrete identity-shaped
control-point list `[(0,0),(255,255)]`. -/
theorem curveLUT_bypass_iff_witness :
    curveEnabledUniform (some [⟨0, 0⟩, ⟨255, 255⟩]) ≤ 1/2 := by
  refine (curveLUT_bypass_iff _).mpr (Or.inr fun p hp => ?_)
  simp only [List.mem_cons, List.not_mem_nil, or_false] at hp
  rcases hp with rfl | rfl
  · norm_num
  · norm_num

/-! ## EditParameters and uniform upload (`renderWithEdits`) -/

/-- The numeric fields of an `EditParameters` snapshot, flattened the way
`renderWithEdits` reads them (`edits.sharpening?.amount` ↦ `sharpenAmount`
and so on).  `x || 0` on a JS number is numerically the identity, so plain
rational fields model the defaulted reads; `?? d` defaults coincide with
the edit store's `DEFAULT_EDITS` values used in `neutralEdits`. -/
structure EditParams where
  exposure : ℚ
  contrast : ℚ
  highlights : ℚ
  shadows : ℚ
  whites : ℚ
  blacks : ℚ
  temperature : ℚ
  tint : ℚ
  vibrance : ℚ
  saturation : ℚ
  clarity : ℚ
  dehaze : ℚ
  texture : ℚ
  toneCurvePoints : Option (List CurvePoint)
  hslHue : Fin 8 → ℚ
  hslSat : Fin 8 → ℚ
  hslLum : Fin 8 → ℚ
  cgShadowsHue : ℚ
  cgShadowsSat : ℚ
  cgMidtonesHue : ℚ
  cgMidtonesSat : ℚ
  cgHighlightsHue : ℚ
  cgHighlightsSat : ℚ
  cgBlending : ℚ
  cgBalance : ℚ
  calShadowsTint : ℚ
  calRedHue : ℚ
  calRedSat : ℚ
  calGreenHue : ℚ
  calGreenSat : ℚ
  calBlueHue : ℚ
  calBlueSat : ℚ
  sharpenAmount : ℚ
  sharpenRadius : ℚ
  vignetteAmount : ℚ
  vignetteMidpoint : ℚ
  vignetteRoundness : ℚ
  vignetteFeather : ℚ
  grainAmount : ℚ
  grainSize : ℚ

/-- The fragment-shader uniforms, one field per `uniform float`SLot (plus
the two texel-size components). -/
structure Uniforms where
  exposure : ℚ
  contrast : ℚ
  highlights : ℚ
  shadows : ℚ
  whites : ℚ
  blacks : ℚ
  temperature : ℚ
  tint : ℚ
  vibrance : ℚ
  saturation : ℚ
  clarity : ℚ
  dehaze : ℚ
  texture : ℚ
  curveEnabled : ℚ
  hslHue : Fin 8 → ℚ
  hslSat : Fin 8 → ℚ
  hslLum : Fin 8 → ℚ
  cgShadowsHue : ℚ
  cgShadowsSat : ℚ
  cgMidtonesHue : ℚ
  cgMidtonesSat : ℚ
  cgHighlightsHue : ℚ
  cgHighlightsSat : ℚ
  cgBlending : ℚ
  cgBalance : ℚ
  calShadowsTint : ℚ
  calRedHue : ℚ
  calRedSat : ℚ
  calGreenHue : ℚ
  calGreenSat : ℚ
  calBlueHue : ℚ
  calBlueSat : ℚ
  sharpenAmount : ℚ
  sharpenRadius : ℚ
  texelX : ℚ
  texelY : ℚ
  vignetteAmount : ℚ
  vignetteMidpoint : ℚ
  vignetteRoundness : ℚ
  vignetteFeather : ℚ
  grainAmount : ℚ
  grainSize : ℚ

/-- The uniform upload in `renderWithEdits`: every field is passed through
unchanged except `u_contrast = contrast * 2.55`, the curve-enable flag, the
`radius || 1.0` default and the derived texel size. -/
def buildUniforms (e : EditParams) (imgW imgH : ℚ) : Uniforms where
  exposure := e.exposure
  contrast := e.contrast * 2.55
  highlights := e.highlights
  shadows := e.shadows
  whites := e.whites
  blacks := e.blacks
  temperature := e.temperature
  tint := e.tint
  vibrance := e.vibrance
  saturation := e.saturation
  clarity := e.clarity
  dehaze := e.dehaze
  texture := e.texture
  curveEnabled := curveEnabledUniform e.toneCurvePoints
  hslHue := e.hslHue
  hslSat := e.hslSat
  hslLum := e.hslLum
  cgShadowsHue := e.cgShadowsHue
  cgShadowsSat := e.cgShadowsSat
  cgMidtonesHue := e.cgMidtonesHue
  cgMidtonesSat := e.cgMidtonesSat
  cgHighlightsHue := e.cgHighlightsHue
  cgHighlightsSat := e.cgHighlightsSat
  cgBlending := e.cgBlending
  cgBalance := e.cgBalance
  calShadowsTint := e.calShadowsTint
  calRedHue := e.calRedHue
  calRedSat := e.calRedSat
  calGreenHue := e.calGreenHue
  calGreenSat := e.calGreenSat
  calBlueHue := e.calBlueHue
  calBlueSat := e.calBlueSat
  sharpenAmount := e.sharpenAmount
  sharpenRadius := if e.sharpenRadius = 0 then 1 else e.sharpenRadius
  texelX := 1 / imgW
  texelY := 1 / imgH
  vignetteAmount := e.vignetteAmount
  vignetteMidpoint := e.vignetteMidpoint
  vignetteRoundness := e.vignetteRoundness
  vignetteFeather := e.vignetteFeather
  grainAmount := e.grainAmount
  grainSize := e.grainSize

/-- `DEFAULT_EDITS` from the edit store: every slider neutral, the default
5-point identity tone curve, blending 50, vignette midpoint/feather 50,
grain size 25, sharpening radius 1. -/
def neutralEdits : EditParams where
  exposure := 0
  contrast := 0
  highlights := 0
  shadows := 0
  whites := 0
  blacks := 0
  temperature := 0
  tint := 0
  vibrance := 0
  saturation := 0
  clarity := 0
  dehaze := 0
  texture := 0
  toneCurvePoints := some [⟨0, 0⟩, ⟨64, 64⟩, ⟨128, 128⟩, ⟨192, 192⟩, ⟨255, 255⟩]
  hslHue := fun _ => 0
  hslSat := fun _ => 0
  hslLum := fun _ => 0
  cgShadowsHue := 0
  cgShadowsSat := 0
  cgMidtonesHue := 0
  cgMidtonesSat := 0
  cgHighlightsHue := 0
  cgHighlightsSat := 0
  cgBlending := 50
  cgBalance := 0
  calShadowsTint := 0
  calRedHue := 0
  calRedSat := 0
  calGreenHue := 0
  calGreenSat := 0
  calBlueHue := 0
  calBlueSat := 0
  sharpenAmount := 0
  sharpenRadius := 1
  vignetteAmount := 0
  vignetteMidpoint := 50
  vignetteRoundness := 0
  vignetteFeather := 50
  grainAmount := 0
  grainSize := 25

/-- The denominator of the shader's contrast slope
`f = 259·(c+255)/(255·(259−c))`. -/
def contrastDivisor (c : ℚ) : ℚ := 255 * (259 - c)

/-- C2 counterexample: no clamp exists in `renderWithEdits`, so the
snapshot with `contrast = 5180/51 ≈ 101.57` sends `c = contrast·2.55 = 259`
into the shader and the slope divisor `255·(259−c)` is exactly zero. -/
theorem contrast_divisor_zero_at_out_of_range :
    contrastDivisor ((buildUniforms { neutralEdits with contrast := 5180/51 } 1 1).contrast)
      = 0 := by
  show (255 : ℚ) * (259 - 5180/51 * 2.55) = 0
  norm_num

/-- C2 (amended): the contrast value is uploaded unclamped as
`contrast·2.55`; the divisor is nonzero for every snapshot whose contrast
lies in the UI slider range `[-100, 100]`, but an out-of-range value
(`contrast = 5180/51`) makes it exactly zero. -/
theorem contrast_divisor_pos_in_range (e : EditParams) (imgW imgH : ℚ)
    (hlo : -100 ≤ e.contrast) (hhi : e.contrast ≤ 100) :
    0 < contrastDivisor ((buildUniforms e imgW imgH).contrast) := by
  show (0 : ℚ) < 255 * (259 - e.contrast * 2.55)
  nlinarith

/-- C2 witness: the in-range positivity applied at the neutral snapshot. -/
theorem contrast_divisor_pos_in_range_witness :
    0 < contrastDivisor ((buildUniforms neutralEdits 1 1).contrast) :=
  contrast_divisor_pos_in_range neutralEdits 1 1 (by norm_num [neutralEdits])
    (by norm_num [neutralEdits])

/-! ## The fragment shader (`FRAGMENT_SHADER`), per pixel -/

/-- An RGB triple (`vec3` used as a colour). -/
structure RGB where
  r : ℚ
  g : ℚ
  b : ℚ

/-- An RGBA texel (`vec4`), as returned by `texture2D`. -/
structure RGBA where
  r : ℚ
  g : ℚ
  b : ℚ
  a : ℚ

/-- A hue/sat/lightness triple (`vec3` holding HSL). -/
structure HSL where
  h : ℚ
  s : ℚ
  l : ℚ

/-- `color * k` componentwise. -/
def scaleRGB (k : ℚ) (c : RGB) : RGB := ⟨c.r * k, c.g * k, c.b * k⟩

/-- `color += k` componentwise. -/
def addRGB (c : RGB) (k : ℚ) : RGB := ⟨c.r + k, c.g + k, c.b + k⟩

/-- componentwise product of two colours. -/
def mulRGB (c d : RGB) : RGB := ⟨c.r * d.r, c.g * d.g, c.b * d.b⟩

/-- GLSL `mix(a, b, t) = a + (b − a)·t` componentwise. -/
def mixRGB (c d : RGB) (t : ℚ) : RGB :=
  ⟨c.r + (d.r - c.r) * t, c.g + (d.g - c.g) * t, c.b + (d.b - c.b) * t⟩

/-- `clamp(color, lo, hi)` componentwise. -/
def clampRGB (lo hi : ℚ) (c : RGB) : RGB :=
  ⟨clampQ lo hi c.r, clampQ lo hi c.g, clampQ lo hi c.b⟩

/-- `luminance(c) = dot(c, vec3(0.2126, 0.7152, 0.0722))`. -/
def luminance (c : RGB) : ℚ := c.r * 0.2126 + c.g * 0.7152 + c.b * 0.0722

/-- `rgb2hsl` from the fragment shader, exactly: `h = s = 0` when
`maxC == minC`, otherwise branch on the dominant channel. -/
def rgb2hsl (c : RGB) : HSL :=
  let maxC := max (max c.r c.g) c.b
  let minC := min (min c.r c.g) c.b
  let l := (maxC + minC) * 0.5
  if maxC = minC then ⟨0, 0, l⟩
  else
    let d := maxC - minC
    let s := if 0.5 < l then d / (2 - maxC - minC) else d / (maxC + minC)
    let hh :=
      if maxC = c.r then (c.g - c.b) / d + (if c.g < c.b then 6 else 0)
      else if maxC = c.g then (c.b - c.r) / d + 2
      else (c.r - c.g) / d + 4
    ⟨hh / 6, s, l⟩

/-- `hue2rgb(p, q, t)` from the fragment shader. -/
def hue2rgb (p q t0 : ℚ) : ℚ :=
  let t1 := if t0 < 0 then t0 + 1 else t0
  let t := if 1 < t1 then t1 - 1 else t1
  if t < 1/6 then p + (q - p) * 6 * t
  else if t < 1/2 then q
  else if t < 2/3 then p + (q - p) * (2/3 - t) * 6
  else p

/-- `hsl2rgb` from the fragment shader. -/
def hsl2rgb (c : HSL) : RGB :=
  if c.s = 0 then ⟨c.l, c.l, c.l⟩
  else
    let q := if c.l < 0.5 then c.l * (1 + c.s) else c.l + c.s - c.l * c.s
    let p := 2 * c.l - q
    ⟨hue2rgb p q (c.h + 1/3), hue2rgb p q c.h, hue2rgb p q (c.h - 1/3)⟩

/-- Hue-band centre table of `getColorWeight` (the unrolled ladder). -/
def hueCenter : Fin 8 → ℚ
  | 0 => 0
  | 1 => 30
  | 2 => 60
  | 3 => 120
  | 4 => 180
  | 5 => 240
  | 6 => 280
  | 7 => 320

/-- `getColorWeight(hue, colorIdx)`: circular distance to the band centre
then `smoothstep(30, 0, dist)`. -/
def getColorWeight (hue : ℚ) (i : Fin 8) : ℚ :=
  let hDeg := hue * 360
  let dist0 := |hDeg - hueCenter i|
  let dist := if 180 < dist0 then 360 - dist0 else dist0
  smoothstepG 30 0 dist

/-- Abstract GPU primitives the shader consumes: `pow(2, ·)`, the vignette
`length(·)` and the `sin`-based grain noise.  They are parameters of the
embedding because their values never matter for the claims settled here. -/
structure ShaderEnv where
  exp2 : ℚ → ℚ
  len2 : ℚ → ℚ → ℚ
  noise : ℚ → ℚ → ℚ
  lutR : ℚ → ℚ
  lutG : ℚ → ℚ
  lutB : ℚ → ℚ

/-- Exposure stage: `color *= pow(2.0, u_exposure)`. -/
def stageExposure (env : ShaderEnv) (U : Uniforms) (c : RGB) : RGB :=
  scaleRGB (env.exp2 U.exposure) c

/-- Contrast stage: slope formula, pivot 0.5, clamp to `[0,1]`. -/
def stageContrast (U : Uniforms) (c : RGB) : RGB :=
  let f := (259 * (U.contrast + 255)) / (255 * (259 - U.contrast))
  ⟨clampQ 0 1 ((c.r - 0.5) * f + 0.5),
   clampQ 0 1 ((c.g - 0.5) * f + 0.5),
   clampQ 0 1 ((c.b - 0.5) * f + 0.5)⟩

/-- Temperature/tint stage: linear per-channel bias. -/
def stageTempTint (U : Uniforms) (c : RGB) : RGB :=
  let tempShift := U.temperature * 0.0004
  let tintShift := U.tint * 0.0003
  ⟨c.r + tempShift - tintShift * 0.5, c.g + tintShift, c.b - tempShift⟩

/-- Highlights/shadows/whites/blacks stage: smoothstep-masked additive
terms on the luminance. -/
def stageBands (U : Uniforms) (c : RGB) : RGB :=
  let lum := luminance c
  let highlightMask := smoothstepG 0.5 1 lum
  let shadowMask := 1 - smoothstepG 0 0.5 lum
  let whiteMask := smoothstepG 0.75 1 lum
  let blackMask := 1 - smoothstepG 0 0.25 lum
  addRGB (addRGB (addRGB (addRGB c (U.highlights * 0.01 * highlightMask))
    (U.shadows * 0.01 * shadowMask)) (U.whites * 0.01 * whiteMask))
    (U.blacks * 0.01 * blackMask)

/-- Tone-curve stage: per-channel LUT fetch, only when
`u_curveEnabled > 0.5`. -/
def stageCurve (env : ShaderEnv) (U : Uniforms) (c : RGB) : RGB :=
  if 1/2 < U.curveEnabled then
    ⟨env.lutR (clampQ 0 1 c.r), env.lutG (clampQ 0 1 c.g), env.lutB (clampQ 0 1 c.b)⟩
  else c

/-- HSL stage: convert, accumulate the 8 weighted band deltas, reapply
(including vibrance and the global saturation scale), convert back. -/
def stageHSL (U : Uniforms) (c : RGB) : RGB :=
  let hsl0 := rgb2hsl (clampRGB 0 1 c)
  let hueShift := ∑ i : Fin 8, U.hslHue i * getColorWeight hsl0.h i
  let satShift := ∑ i : Fin 8, U.hslSat i * getColorWeight hsl0.h i
  let lumShift := ∑ i : Fin 8, U.hslLum i * getColorWeight hsl0.h i
  let hx := Int.fract (hsl0.h + hueShift / 360)
  let hy0 := clampQ 0 1 (hsl0.s + satShift * 0.01)
  let hz := clampQ 0 1 (hsl0.l + lumShift * 0.01)
  let vibranceBoost := U.vibrance * 0.01 * (1 - hy0)
  let hy1 := clampQ 0 1 (hy0 + vibranceBoost)
  let hy2 := clampQ 0 1 (hy1 * (1 + U.saturation * 0.01))
  hsl2rgb ⟨hx, hy2, hz⟩

/-- 3-way colour-grading stage; each zone only fires when its saturation
is strictly positive. -/
def stageColorGrading (U : Uniforms) (c : RGB) : RGB :=
  let cgLum := luminance c
  let balance := U.cgBalance * 0.01
  let shadowW := smoothstepG (0.5 + balance * 0.25) 0 cgLum
  let highlightW := smoothstepG (0.5 - balance * 0.25) 1 cgLum
  let midtoneW := max (1 - shadowW - highlightW) 0
  let blend := U.cgBlending * 0.01
  let c1 := if 0 < U.cgShadowsSat then
      mixRGB c (mulRGB c (scaleRGB 2 (hsl2rgb ⟨U.cgShadowsHue / 360, 1, 0.5⟩)))
        (shadowW * U.cgShadowsSat * 0.01 * blend)
    else c
  let c2 := if 0 < U.cgMidtonesSat then
      mixRGB c1 (mulRGB c1 (scaleRGB 2 (hsl2rgb ⟨U.cgMidtonesHue / 360, 1, 0.5⟩)))
        (midtoneW * U.cgMidtonesSat * 0.01 * blend)
    else c1
  if 0 < U.cgHighlightsSat then
    mixRGB c2 (mulRGB c2 (scaleRGB 2 (hsl2rgb ⟨U.cgHighlightsHue / 360, 1, 0.5⟩)))
      (highlightW * U.cgHighlightsSat * 0.01 * blend)
  else c2

/-- Calibration stage: shadow tint then per-primary shift clamped to
`[0, 1.5]`. -/
def stageCalibration (U : Uniforms) (c : RGB) : RGB :=
  let calShadowMask := 1 - smoothstepG 0 0.5 (luminance c)
  let c1 : RGB := ⟨c.r - U.calShadowsTint * 0.0015 * calShadowMask,
    c.g + U.calShadowsTint * 0.003 * calShadowMask, c.b⟩
  ⟨clampQ 0 1.5 (c1.r * (1 + U.calRedSat * 0.005) + U.calRedHue * 0.002),
   clampQ 0 1.5 (c1.g * (1 + U.calGreenSat * 0.005) + U.calGreenHue * 0.002),
   clampQ 0 1.5 (c1.b * (1 + U.calBlueSat * 0.005) + U.calBlueHue * 0.002)⟩

/-- Dehaze stage: `color*(1+k) − k/2` with `k = dehaze·0.005`. -/
def stageDehaze (U : Uniforms) (c : RGB) : RGB :=
  let k := U.dehaze * 0.005
  ⟨c.r * (1 + k) - k * 0.5, c.g * (1 + k) - k * 0.5, c.b * (1 + k) - k * 0.5⟩

/-- Clarity stage: midtone-weighted push away from 0.5. -/
def stageClarity (U : Uniforms) (c : RGB) : RGB :=
  let m := 1 - |luminance c - 0.5| * 2
  ⟨c.r + U.clarity * 0.003 * m * (c.r - 0.5),
   c.g + U.clarity * 0.003 * m * (c.g - 0.5),
   c.b + U.clarity * 0.003 * m * (c.b - 0.5)⟩

/-- Texture stage: micro-contrast push away from the luminance. -/
def stageTexture (U : Uniforms) (c : RGB) : RGB :=
  let lum := luminance c
  ⟨c.r + U.texture * 0.001 * (c.r - lum),
   c.g + U.texture * 0.001 * (c.g - lum),
   c.b + U.texture * 0.001 * (c.b - lum)⟩

/-- Sharpening stage: 8-tap box blur of the ORIGINAL texel at radius
offsets, add back the detail signal; only when `u_sharpenAmount > 0`. -/
def stageSharpen (U : Uniforms) (tex : ℚ → ℚ → RGBA) (tcx tcy : ℚ)
    (texColor : RGBA) (c : RGB) : RGB :=
  if 0 < U.sharpenAmount then
    let r2 := U.sharpenRadius
    let tap := fun dx dy =>
      tex (tcx + dx * U.texelX) (tcy + dy * U.texelY)
    let sum := fun f : RGBA → ℚ =>
      f (tap (-r2) (-r2)) + f (tap 0 (-r2)) + f (tap r2 (-r2)) + f (tap (-r2) 0) +
        f (tap r2 0) + f (tap (-r2) r2) + f (tap 0 r2) + f (tap r2 r2)
    let blur : RGB := ⟨sum RGBA.r / 8, sum RGBA.g / 8, sum RGBA.b / 8⟩
    ⟨c.r + (texColor.r - blur.r) * U.sharpenAmount * 0.01,
     c.g + (texColor.g - blur.g) * U.sharpenAmount * 0.01,
     c.b + (texColor.b - blur.b) * U.sharpenAmount * 0.01⟩
  else c

/-- Vignette stage: elliptical radial falloff; only when
`u_vignetteAmount ≠ 0`. -/
def stageVignette (env : ShaderEnv) (U : Uniforms) (tcx tcy : ℚ) (c : RGB) : RGB :=
  if U.vignetteAmount ≠ 0 then
    let roundness := U.vignetteRoundness * 0.01
    let cx := (tcx - 0.5) * (1 + (1.414 - 1) * (0.5 + roundness * 0.5))  -- mix(1.0, 1.414, ·)
    let cy := tcy - 0.5
    let dist := env.len2 cx cy * 1.414
    let midpt := U.vignetteMidpoint * 0.01
    let feather := max (U.vignetteFeather * 0.01) 0.01
    let v := smoothstepG midpt (midpt + feather) dist
    scaleRGB (1 + U.vignetteAmount * 0.01 * v * (-1)) c
  else c

/-- Grain stage: deterministic noise keyed by the quantised coordinate;
only when `u_grainAmount > 0`. -/
def stageGrain (env : ShaderEnv) (U : Uniforms) (tcx tcy : ℚ) (c : RGB) : RGB :=
  if 0 < U.grainAmount then
    let grainScale := max 1 (U.grainSize * 0.1)
    let gx := (⌊tcx * 800 / grainScale⌋ : ℚ) * grainScale
    let gy := (⌊tcy * 800 / grainScale⌋ : ℚ) * grainScale
    addRGB c ((env.noise gx gy - 0.5) * U.grainAmount * 0.01)
  else c

/-- `main()` of `FRAGMENT_SHADER`: the full per-pixel pipeline in shader
order, final clamp to `[0,1]`, alpha passed through. -/
def shaderMain (env : ShaderEnv) (U : Uniforms) (tex : ℚ → ℚ → RGBA)
    (tcx tcy : ℚ) : RGBA :=
  let texColor := tex tcx tcy
  let c0 : RGB := ⟨texColor.r, texColor.g, texColor.b⟩
  let c1 := stageExposure env U c0
  let c2 := stageContrast U c1
  let c3 := stageTempTint U c2
  let c4 := stageBands U c3
  let c5 := stageCurve env U c4
  let c6 := stageHSL U c5
  let c7 := stageColorGrading U c6
  let c8 := stageCalibration U c7
  let c9 := stageDehaze U c8
  let c10 := stageClarity U c9
  let c11 := stageTexture U c10
  let c12 := stageSharpen U tex tcx tcy texColor c11
  let c13 := stageVignette env U tcx tcy c12
  let c14 := stageGrain env U tcx tcy c13
  let fin := clampRGB 0 1 c14
  ⟨fin.r, fin.g, fin.b, texColor.a⟩

/-! ## `rgb2hsl` / `hsl2rgb` round-trip -/

theorem hue2rgb_eval_core {p q t0 : ℚ} (h0 : 0 ≤ t0) (h1 : t0 ≤ 1) :
    hue2rgb p q t0 =
      if t0 < 1/6 then p + (q - p) * 6 * t0
      else if t0 < 1/2 then q
      else if t0 < 2/3 then p + (q - p) * (2/3 - t0) * 6
      else p := by
  simp only [hue2rgb]
  rw [if_neg (not_lt.mpr h0), if_neg (not_lt.mpr h1)]

theorem hue2rgb_wrap_neg {p q t0 : ℚ} (hneg : t0 < 0) (hge : -1 ≤ t0) :
    hue2rgb p q t0 = hue2rgb p q (t0 + 1) := by
  simp only [hue2rgb]
  rw [if_pos hneg, if_neg (show ¬ t0 + 1 < 0 by linarith),
    if_neg (show ¬ (1:ℚ) < t0 + 1 by linarith)]

theorem hue2rgb_wrap_pos {p q t0 : ℚ} (hgt : 1 < t0) (hle : t0 ≤ 2) :
    hue2rgb p q t0 = hue2rgb p q (t0 - 1) := by
  simp only [hue2rgb]
  rw [if_neg (show ¬ t0 < 0 by linarith), if_pos hgt,
    if_neg (show ¬ t0 - 1 < 0 by linarith), if_neg (show ¬ (1:ℚ) < t0 - 1 by linarith)]

/-- Hue sector `h6 ∈ [0,1]` (dominant red, `g ≥ b`). -/
theorem hue_triple_sector0 (p q h6 : ℚ) (hl : 0 ≤ h6) (hu : h6 ≤ 1) :
    hue2rgb p q (h6/6 + 1/3) = q ∧ hue2rgb p q (h6/6) = p + (q - p) * h6 ∧
      hue2rgb p q (h6/6 - 1/3) = p := by
  refine ⟨?_, ?_, ?_⟩
  · rw [hue2rgb_eval_core (by linarith) (by linarith)]
    by_cases hx : h6/6 + 1/3 < 1/2
    · rw [if_neg (by linarith), if_pos hx]
    · have h61 : h6 = 1 := by linarith [not_lt.mp hx]
      rw [if_neg (by linarith), if_neg hx, if_pos (by rw [h61]; norm_num)]
      rw [h61]
      ring
  · rw [hue2rgb_eval_core (by linarith) (by linarith)]
    by_cases hx : h6/6 < 1/6
    · rw [if_pos hx]
      ring
    · have h61 : h6 = 1 := by linarith [not_lt.mp hx]
      rw [if_neg hx, if_pos (by rw [h61]; norm_num), h61]
      ring
  · rw [hue2rgb_wrap_neg (by linarith) (by linarith),
      hue2rgb_eval_core (by linarith) (by linarith)]
    rw [if_neg (by linarith), if_neg (by linarith), if_neg (by linarith)]

/-- Hue sector `h6 ∈ [1,2)` (dominant green, `b < r`). -/
theorem hue_triple_sector1 (p q h6 : ℚ) (hl : 1 ≤ h6) (hu : h6 < 2) :
    hue2rgb p q (h6/6 + 1/3) = p + (q - p) * (2 - h6) ∧ hue2rgb p q (h6/6) = q ∧
      hue2rgb p q (h6/6 - 1/3) = p := by
  refine ⟨?_, ?_, ?_⟩
  · rw [hue2rgb_eval_core (by linarith) (by linarith)]
    rw [if_neg (by linarith), if_neg (by linarith), if_pos (by linarith)]
    ring
  · rw [hue2rgb_eval_core (by linarith) (by linarith)]
    rw [if_neg (by linarith), if_pos (by linarith)]
  · rw [hue2rgb_wrap_neg (by linarith) (by linarith),
      hue2rgb_eval_core (by linarith) (by linarith)]
    rw [if_neg (by linarith), if_neg (by linarith), if_neg (by linarith)]

/-- Hue sector `h6 ∈ [2,3]` (dominant green, `r ≤ b`). -/
theorem hue_triple_sector2 (p q h6 : ℚ) (hl : 2 ≤ h6) (hu : h6 ≤ 3) :
    hue2rgb p q (h6/6 + 1/3) = p ∧ hue2rgb p q (h6/6) = q ∧
      hue2rgb p q (h6/6 - 1/3) = p + (q - p) * (h6 - 2) := by
  refine ⟨?_, ?_, ?_⟩
  · rw [hue2rgb_eval_core (by linarith) (by linarith)]
    rw [if_neg (by linarith), if_neg (by linarith), if_neg (by linarith)]
  · rw [hue2rgb_eval_core (by linarith) (by linarith)]
    by_cases hx : h6/6 < 1/2
    · rw [if_neg (by linarith), if_pos hx]
    · have h63 : h6 = 3 := by linarith [not_lt.mp hx]
      rw [if_neg (by linarith), if_neg hx, if_pos (by rw [h63]; norm_num), h63]
      ring
  · rw [hue2rgb_eval_core (by linarith) (by linarith)]
    by_cases hx : h6/6 - 1/3 < 1/6
    · rw [if_pos hx]
      ring
    · have h63 : h6 = 3 := by linarith [not_lt.mp hx]
      rw [if_neg hx, if_pos (by rw [h63]; norm_num), h63]
      ring

/-- Hue sector `h6 ∈ [3,4)` (dominant blue, `r < g`). -/
theorem hue_triple_sector3 (p q h6 : ℚ) (hl : 3 ≤ h6) (hu : h6 < 4) :
    hue2rgb p q (h6/6 + 1/3) = p ∧ hue2rgb p q (h6/6) = p + (q - p) * (4 - h6) ∧
      hue2rgb p q (h6/6 - 1/3) = q := by
  refine ⟨?_, ?_, ?_⟩
  · rw [hue2rgb_eval_core (by linarith) (by linarith)]
    rw [if_neg (by linarith), if_neg (by linarith), if_neg (by linarith)]
  · rw [hue2rgb_eval_core (by linarith) (by linarith)]
    rw [if_neg (by linarith), if_neg (by linarith), if_pos (by linarith)]
    ring
  · rw [hue2rgb_eval_core (by linarith) (by linarith)]
    rw [if_neg (by linarith), if_pos (by linarith)]

/-- Hue sector `h6 ∈ [4,5]` (dominant blue, `g ≤ r`). -/
theorem hue_triple_sector4 (p q h6 : ℚ) (hl : 4 ≤ h6) (hu : h6 ≤ 5) :
    hue2rgb p q (h6/6 + 1/3) = p + (q - p) * (h6 - 4) ∧ hue2rgb p q (h6/6) = p ∧
      hue2rgb p q (h6/6 - 1/3) = q := by
  refine ⟨?_, ?_, ?_⟩
  · by_cases hgt : 1 < h6/6 + 1/3
    · rw [hue2rgb_wrap_pos hgt (by linarith),
        hue2rgb_eval_core (by linarith) (by linarith)]
      by_cases hx : h6/6 + 1/3 - 1 < 1/6
      · rw [if_pos hx]
        ring
      · have h65 : h6 = 5 := by linarith [not_lt.mp hx]
        rw [if_neg hx, if_pos (by rw [h65]; norm_num), h65]
        ring
    · have h64 : h6 = 4 := by linarith [not_lt.mp hgt]
      rw [hue2rgb_eval_core (by linarith) (by linarith)]
      rw [if_neg (by linarith), if_neg (by linarith), if_neg (by linarith), h64]
      ring
  · rw [hue2rgb_eval_core (by linarith) (by linarith)]
    rw [if_neg (by linarith), if_neg (by linarith), if_neg (by linarith)]
  · rw [hue2rgb_eval_core (by linarith) (by linarith)]
    by_cases hx : h6/6 - 1/3 < 1/2
    · rw [if_neg (by linarith), if_pos hx]
    · have h65 : h6 = 5 := by linarith [not_lt.mp hx]
      rw [if_neg (by linarith), if_neg hx, if_pos (by rw [h65]; norm_num), h65]
      ring

/-- Hue sector `h6 ∈ [5,6)` (dominant red, `g < b`). -/
theorem hue_triple_sector5 (p q h6 : ℚ) (hl : 5 ≤ h6) (hu : h6 < 6) :
    hue2rgb p q (h6/6 + 1/3) = q ∧ hue2rgb p q (h6/6) = p ∧
      hue2rgb p q (h6/6 - 1/3) = p + (q - p) * (6 - h6) := by
  refine ⟨?_, ?_, ?_⟩
  · rw [hue2rgb_wrap_pos (by linarith) (by linarith),
      hue2rgb_eval_core (by linarith) (by linarith)]
    rw [if_neg (by linarith), if_pos (by linarith)]
  · rw [hue2rgb_eval_core (by linarith) (by linarith)]
    rw [if_neg (by linarith), if_neg (by linarith), if_neg (by linarith)]
  · rw [hue2rgb_eval_core (by linarith) (by linarith)]
    rw [if_neg (by linarith), if_neg (by linarith), if_pos (by linarith)]
    ring

/-- Round trip in the non-grey case, with the max/min channels abstracted. -/
theorem roundtrip_main (r g b M m : ℚ)
    (hMdef : M = max (max r g) b) (hmdef : m = min (min r g) b)
    (hNe : ¬ M = m) (h0m : 0 ≤ m) (hM1 : M ≤ 1) :
    hsl2rgb (rgb2hsl ⟨r, g, b⟩) = ⟨r, g, b⟩ := by
  have hrM : r ≤ M := by rw [hMdef]; exact le_trans (le_max_left r g) (le_max_left _ b)
  have hgM : g ≤ M := by rw [hMdef]; exact le_trans (le_max_right r g) (le_max_left _ b)
  have hbM : b ≤ M := by rw [hMdef]; exact le_max_right _ b
  have hmr : m ≤ r := by rw [hmdef]; exact le_trans (min_le_left _ b) (min_le_left r g)
  have hmg : m ≤ g := by rw [hmdef]; exact le_trans (min_le_left _ b) (min_le_right r g)
  have hmb : m ≤ b := by rw [hmdef]; exact min_le_right _ b
  have hmM : m < M := lt_of_le_of_ne (le_trans hmr hrM) (fun h => hNe h.symm)
  have hMm : 0 < M + m := by linarith
  have h2Mm : 0 < 2 - M - m := by linarith
  have hd : 0 < M - m := by linarith
  have hgoal : rgb2hsl ⟨r, g, b⟩ =
      ⟨(if M = r then (g - b) / (M - m) + (if g < b then 6 else 0)
        else if M = g then (b - r) / (M - m) + 2 else (r - g) / (M - m) + 4) / 6,
       if 0.5 < (M + m) * 0.5 then (M - m) / (2 - M - m) else (M - m) / (M + m),
       (M + m) * 0.5⟩ := by
    simp only [rgb2hsl]
    rw [← hMdef, ← hmdef, if_neg hNe]
  rw [hgoal]
  simp only [hsl2rgb]
  have hSpos : 0 < (if 0.5 < (M + m) * 0.5 then (M - m) / (2 - M - m)
      else (M - m) / (M + m)) := by
    split_ifs
    · exact div_pos hd h2Mm
    · exact div_pos hd hMm
  rw [if_neg hSpos.ne']
  have hQ : (if (M + m) * 0.5 < 0.5 then
        ((M + m) * 0.5) * (1 + (if 0.5 < (M + m) * 0.5 then (M - m) / (2 - M - m)
          else (M - m) / (M + m)))
      else (M + m) * 0.5 + (if 0.5 < (M + m) * 0.5 then (M - m) / (2 - M - m)
          else (M - m) / (M + m)) -
        ((M + m) * 0.5) * (if 0.5 < (M + m) * 0.5 then (M - m) / (2 - M - m)
          else (M - m) / (M + m))) = M := by
    rcases lt_trichotomy ((M + m) * 0.5) 0.5 with hl | hl | hl
    · rw [if_pos hl, if_neg (by linarith)]
      field_simp
      ring
    · have h1 : M + m = 1 := by linarith
      rw [if_neg (by linarith), if_neg (by linarith), h1]
      norm_num
      linarith
    · rw [if_neg (by linarith), if_pos hl]
      field_simp
      ring
  rw [hQ]
  have hP : 2 * ((M + m) * 0.5) - M = m := by linarith
  rw [hP, RGB.mk.injEq]
  by_cases hMr : M = r
  · rw [if_pos hMr]
    by_cases hgb : g < b
    · rw [if_pos hgb]
      have hmg2 : m = g := by
        rw [hmdef, min_eq_right (show g ≤ r from hMr ▸ hgM)]
        exact min_eq_left hgb.le
      have hb5 : (5:ℚ) ≤ (g - b) / (M - m) + 6 := by
        have : -(1:ℚ) ≤ (g - b) / (M - m) := by
          rw [neg_le, ← neg_div, neg_sub]
          exact (div_le_one hd).mpr (by linarith)
        linarith
      have hb6 : (g - b) / (M - m) + 6 < 6 := by
        have : (g - b) / (M - m) < 0 := div_neg_of_neg_of_pos (by linarith) hd
        linarith
      obtain ⟨e1, e2, e3⟩ := hue_triple_sector5 m M ((g - b) / (M - m) + 6) hb5 hb6
      refine ⟨?_, ?_, ?_⟩
      · rw [e1]
        exact hMr
      · rw [e2]
        exact hmg2
      · rw [e3, hmg2]
        have hne : M - g ≠ 0 := by rw [← hmg2]; exact hd.ne'
        field_simp
    · rw [if_neg hgb, add_zero]
      have hmb2 : m = b := by
        rw [hmdef, min_eq_right (show g ≤ r from hMr ▸ hgM)]
        exact min_eq_right (le_of_not_lt hgb)
      have hb0 : (0:ℚ) ≤ (g - b) / (M - m) :=
        div_nonneg (by linarith [le_of_not_lt hgb]) hd.le
      have hb1 : (g - b) / (M - m) ≤ 1 := (div_le_one hd).mpr (by linarith)
      obtain ⟨e1, e2, e3⟩ := hue_triple_sector0 m M ((g - b) / (M - m)) hb0 hb1
      refine ⟨?_, ?_, ?_⟩
      · rw [e1]
        exact hMr
      · rw [e2, hmb2]
        have hne : M - b ≠ 0 := by rw [← hmb2]; exact hd.ne'
        field_simp
      · rw [e3]
        exact hmb2
  · rw [if_neg hMr]
    by_cases hMg : M = g
    · rw [if_pos hMg]
      have hrg2 : r ≤ g := hMg ▸ hrM
      by_cases hrb : r ≤ b
      · have hmr2 : m = r := by
          rw [hmdef, min_eq_left hrg2]
          exact min_eq_left hrb
        have hb2 : (2:ℚ) ≤ (b - r) / (M - m) + 2 := by
          have : (0:ℚ) ≤ (b - r) / (M - m) := div_nonneg (by linarith) hd.le
          linarith
        have hb3 : (b - r) / (M - m) + 2 ≤ 3 := by
          have : (b - r) / (M - m) ≤ 1 := (div_le_one hd).mpr (by linarith)
          linarith
        obtain ⟨e1, e2, e3⟩ := hue_triple_sector2 m M ((b - r) / (M - m) + 2) hb2 hb3
        refine ⟨?_, ?_, ?_⟩
        · rw [e1]
          exact hmr2
        · rw [e2]
          exact hMg
        · rw [e3, hmr2]
          have hne : M - r ≠ 0 := by rw [← hmr2]; exact hd.ne'
          field_simp
          ring
      · have hmb2 : m = b := by
          rw [hmdef, min_eq_left hrg2]
          exact min_eq_right (le_of_not_le hrb)
        have hb1 : (1:ℚ) ≤ (b - r) / (M - m) + 2 := by
          have : -(1:ℚ) ≤ (b - r) / (M - m) := by
            rw [neg_le, ← neg_div, neg_sub]
            exact (div_le_one hd).mpr (by linarith)
          linarith
        have hb2 : (b - r) / (M - m) + 2 < 2 := by
          have : (b - r) / (M - m) < 0 :=
            div_neg_of_neg_of_pos (by linarith [not_le.mp hrb]) hd
          linarith
        obtain ⟨e1, e2, e3⟩ := hue_triple_sector1 m M ((b - r) / (M - m) + 2) hb1 hb2
        refine ⟨?_, ?_, ?_⟩
        · rw [e1, hmb2]
          have hne : M - b ≠ 0 := by rw [← hmb2]; exact hd.ne'
          field_simp
        · rw [e2]
          exact hMg
        · rw [e3]
          exact hmb2
    · rw [if_neg hMg]
      have hMb : M = b := by
        rcases max_choice (max r g) b with h | h
        · exfalso
          rcases max_choice r g with h2 | h2
          · exact hMr (by rw [hMdef, h, h2])
          · exact hMg (by rw [hMdef, h, h2])
        · exact hMdef.trans h
      have hrM2 : r < M := lt_of_le_of_ne hrM (fun h => hMr h.symm)
      have hmdef2 : m = min r g := by
        rw [hmdef]
        exact min_eq_left (le_of_lt (lt_of_le_of_lt (min_le_left r g) (hMb ▸ hrM2)))
      by_cases hgr : g ≤ r
      · have hmg2 : m = g := hmdef2.trans (min_eq_right hgr)
        have hb4 : (4:ℚ) ≤ (r - g) / (M - m) + 4 := by
          have : (0:ℚ) ≤ (r - g) / (M - m) := div_nonneg (by linarith) hd.le
          linarith
        have hb5 : (r - g) / (M - m) + 4 ≤ 5 := by
          have : (r - g) / (M - m) ≤ 1 := (div_le_one hd).mpr (by linarith)
          linarith
        obtain ⟨e1, e2, e3⟩ := hue_triple_sector4 m M ((r - g) / (M - m) + 4) hb4 hb5
        refine ⟨?_, ?_, ?_⟩
        · rw [e1, hmg2]
          have hne : M - g ≠ 0 := by rw [← hmg2]; exact hd.ne'
          field_simp
          ring
        · rw [e2]
          exact hmg2
        · rw [e3]
          exact hMb
      · have hmr2 : m = r := hmdef2.trans (min_eq_left (le_of_not_le hgr))
        have hb3 : (3:ℚ) ≤ (r - g) / (M - m) + 4 := by
          have : -(1:ℚ) ≤ (r - g) / (M - m) := by
            rw [neg_le, ← neg_div, neg_sub]
            exact (div_le_one hd).mpr (by linarith)
          linarith
        have hb4 : (r - g) / (M - m) + 4 < 4 := by
          have : (r - g) / (M - m) < 0 :=
            div_neg_of_neg_of_pos (by linarith [not_le.mp hgr]) hd
          linarith
        obtain ⟨e1, e2, e3⟩ := hue_triple_sector3 m M ((r - g) / (M - m) + 4) hb3 hb4
        refine ⟨?_, ?_, ?_⟩
        · rw [e1]
          exact hmr2
        · rw [e2, hmr2]
          have hne : M - r ≠ 0 := by rw [← hmr2]; exact hd.ne'
          field_simp
        · rw [e3]
          exact hMb

/-- The shader's HSL conversion pair is an exact round trip on `[0,1]³`. -/
theorem hsl_roundtrip (c : RGB) (h0r : 0 ≤ c.r) (h1r : c.r ≤ 1) (h0g : 0 ≤ c.g)
    (h1g : c.g ≤ 1) (h0b : 0 ≤ c.b) (h1b : c.b ≤ 1) :
    hsl2rgb (rgb2hsl c) = c := by
  obtain ⟨r, g, b⟩ := c
  dsimp only at h0r h1r h0g h1g h0b h1b
  by_cases hEq : max (max r g) b = min (min r g) b
  · have hrg : r = g := le_antisymm
      (le_trans (le_trans (le_max_left r g) (le_max_left _ b))
        (hEq ▸ le_trans (min_le_left _ b) (min_le_right r g)))
      (le_trans (le_trans (le_max_right r g) (le_max_left _ b))
        (hEq ▸ le_trans (min_le_left _ b) (min_le_left r g)))
    have hgb : g = b := le_antisymm
      (le_trans (le_trans (le_max_right r g) (le_max_left _ b)) (hEq ▸ min_le_right _ b))
      (le_trans (le_max_right (max r g) b) (hEq ▸ le_trans (min_le_left _ b) (min_le_right r g)))
    have hgoal : rgb2hsl ⟨r, g, b⟩ = ⟨0, 0, (max (max r g) b + min (min r g) b) * 0.5⟩ := by
      simp only [rgb2hsl]
      rw [if_pos hEq]
    rw [hgoal]
    simp only [hsl2rgb, if_true]
    have hMr : max (max r g) b = r := by
      rw [← hrg] at hgb
      rw [← hrg, ← hgb, max_self, max_self]
    have hmr : min (min r g) b = r := by
      rw [← hrg] at hgb
      rw [← hrg, ← hgb, min_self, min_self]
    rw [RGB.mk.injEq, hMr, hmr]
    refine ⟨by linarith, by rw [hrg] at *; linarith, by rw [hrg, hgb] at *; linarith⟩
  · exact roundtrip_main r g b _ _ rfl rfl
      (fun h => hEq (by rw [h]))
      (le_min (le_min h0r h0g) h0b) (max_le (max_le h1r h1g) h1b)

/-- The shader's `rgb2hsl` maps `[0,1]³` into `h ∈ [0,1)`, `s ∈ [0,1]`,
`l ∈ [0,1]` (so the later `fract` and clamps are the identity on it). -/
theorem rgb2hsl_mem (r g b : ℚ) (h0r : 0 ≤ r) (h1r : r ≤ 1) (h0g : 0 ≤ g)
    (h1g : g ≤ 1) (h0b : 0 ≤ b) (h1b : b ≤ 1) :
    0 ≤ (rgb2hsl ⟨r, g, b⟩).h ∧ (rgb2hsl ⟨r, g, b⟩).h < 1 ∧
      0 ≤ (rgb2hsl ⟨r, g, b⟩).s ∧ (rgb2hsl ⟨r, g, b⟩).s ≤ 1 ∧
      0 ≤ (rgb2hsl ⟨r, g, b⟩).l ∧ (rgb2hsl ⟨r, g, b⟩).l ≤ 1 := by
  have hrM : r ≤ max (max r g) b := le_trans (le_max_left r g) (le_max_left _ b)
  have hgM : g ≤ max (max r g) b := le_trans (le_max_right r g) (le_max_left _ b)
  have hbM : b ≤ max (max r g) b := le_max_right _ b
  have hmr : min (min r g) b ≤ r := le_trans (min_le_left _ b) (min_le_left r g)
  have hmg : min (min r g) b ≤ g := le_trans (min_le_left _ b) (min_le_right r g)
  have hmb : min (min r g) b ≤ b := min_le_right _ b
  have h0m : 0 ≤ min (min r g) b := le_min (le_min h0r h0g) h0b
  have hM1 : max (max r g) b ≤ 1 := max_le (max_le h1r h1g) h1b
  by_cases hEq : max (max r g) b = min (min r g) b
  · have hgoal : rgb2hsl ⟨r, g, b⟩ =
        ⟨0, 0, (max (max r g) b + min (min r g) b) * 0.5⟩ := by
      simp only [rgb2hsl]
      rw [if_pos hEq]
    rw [hgoal]
    refine ⟨le_refl 0, by norm_num, le_refl 0, by norm_num, by dsimp only; linarith,
      by dsimp only; linarith⟩
  · have hgoal : rgb2hsl ⟨r, g, b⟩ =
        ⟨(if max (max r g) b = r then
            (g - b) / (max (max r g) b - min (min r g) b) + (if g < b then 6 else 0)
          else if max (max r g) b = g then
            (b - r) / (max (max r g) b - min (min r g) b) + 2
          else (r - g) / (max (max r g) b - min (min r g) b) + 4) / 6,
         if 0.5 < (max (max r g) b + min (min r g) b) * 0.5 then
           (max (max r g) b - min (min r g) b) /
             (2 - max (max r g) b - min (min r g) b)
         else (max (max r g) b - min (min r g) b) / (max (max r g) b + min (min r g) b),
         (max (max r g) b + min (min r g) b) * 0.5⟩ := by
      simp only [rgb2hsl]
      rw [if_neg hEq]
    rw [hgoal]
    set M := max (max r g) b with hMs
    set m := min (min r g) b with hms
    have hmM : m < M :=
      lt_of_le_of_ne (le_trans hmr hrM) (fun h => hEq h.symm)
    have hd : 0 < M - m := by linarith
    have habs : ∀ x y : ℚ, m ≤ x → x ≤ M → m ≤ y → y ≤ M →
        -1 ≤ (x - y) / (M - m) ∧ (x - y) / (M - m) ≤ 1 := by
      intro x y hx1 hx2 hy1 hy2
      constructor
      · rw [neg_le, ← neg_div, neg_sub]
        exact (div_le_one hd).mpr (by linarith)
      · exact (div_le_one hd).mpr (by linarith)
    have hh6 : 0 ≤ (if M = r then (g - b) / (M - m) + (if g < b then 6 else 0)
        else if M = g then (b - r) / (M - m) + 2
        else (r - g) / (M - m) + 4) ∧
        (if M = r then (g - b) / (M - m) + (if g < b then 6 else 0)
        else if M = g then (b - r) / (M - m) + 2
        else (r - g) / (M - m) + 4) < 6 := by
      by_cases hMr : M = r
      · rw [if_pos hMr]
        by_cases hgb : g < b
        · rw [if_pos hgb]
          obtain ⟨hn, _⟩ := habs g b hmg hgM hmb hbM
          have : (g - b) / (M - m) < 0 := div_neg_of_neg_of_pos (by linarith) hd
          constructor <;> linarith
        · rw [if_neg hgb]
          obtain ⟨_, hx⟩ := habs g b hmg hgM hmb hbM
          have : 0 ≤ (g - b) / (M - m) :=
            div_nonneg (by linarith [le_of_not_lt hgb]) hd.le
          constructor <;> linarith
      · rw [if_neg hMr]
        by_cases hMg : M = g
        · rw [if_pos hMg]
          obtain ⟨hn, hx⟩ := habs b r hmb hbM hmr hrM
          constructor <;> linarith
        · rw [if_neg hMg]
          obtain ⟨hn, hx⟩ := habs r g hmr hrM hmg hgM
          constructor <;> linarith
    refine ⟨by dsimp only; linarith [hh6.1], by dsimp only; linarith [hh6.2], ?_, ?_,
      by dsimp only; linarith, by dsimp only; linarith⟩
    · dsimp only
      split_ifs with h
      · exact div_nonneg hd.le (by linarith)
      · exact div_nonneg hd.le (by linarith)
    · dsimp only
      split_ifs with h
      · exact (div_le_one (by linarith)).mpr (by linarith)
      · exact (div_le_one (by linarith)).mpr (by linarith)

/-! ## Scenario A: neutral parameters are the per-pixel identity -/

theorem curveEnabled_neutral : curveEnabledUniform neutralEdits.toneCurvePoints = 0 := by
  have h : hasCustomCurve neutralEdits.toneCurvePoints = false := by
    show hasCustomCurve
      (some [⟨0, 0⟩, ⟨64, 64⟩, ⟨128, 128⟩, ⟨192, 192⟩, ⟨255, 255⟩]) = false
    rw [Bool.eq_false_iff]
    intro hc
    unfold hasCustomCurve at hc
    rw [Bool.and_eq_true, List.any_eq_true] at hc
    obtain ⟨-, p, hp, hdec⟩ := hc
    rw [decide_eq_true_eq] at hdec
    simp only [List.mem_cons, List.not_mem_nil, or_false] at hp
    rcases hp with rfl | rfl | rfl | rfl | rfl <;> norm_num at hdec
  unfold curveEnabledUniform
  rw [h]
  simp

theorem stageExposure_neutral (env : ShaderEnv) (w h : ℚ) (c : RGB)
    (hexp : env.exp2 0 = 1) :
    stageExposure env (buildUniforms neutralEdits w h) c = c := by
  obtain ⟨r, g, b⟩ := c
  simp only [stageExposure, scaleRGB]
  rw [show (buildUniforms neutralEdits w h).exposure = 0 from rfl, hexp]
  simp

theorem stageContrast_neutral (w h : ℚ) (c : RGB) (h0r : 0 ≤ c.r) (h1r : c.r ≤ 1)
    (h0g : 0 ≤ c.g) (h1g : c.g ≤ 1) (h0b : 0 ≤ c.b) (h1b : c.b ≤ 1) :
    stageContrast (buildUniforms neutralEdits w h) c = c := by
  obtain ⟨r, g, b⟩ := c
  simp only [stageContrast]
  rw [show (buildUniforms neutralEdits w h).contrast = 0 by
    norm_num [buildUniforms, neutralEdits]]
  rw [show (259 * ((0:ℚ) + 255)) / (255 * (259 - 0)) = 1 by norm_num]
  simp only [mul_one]
  dsimp only at h0r h1r h0g h1g h0b h1b
  simp only [show ∀ x : ℚ, x - 0.5 + 0.5 = x from fun x => by ring]
  rw [show clampQ 0 1 r = r from clampQ_eq_self h0r h1r,
    show clampQ 0 1 g = g from clampQ_eq_self h0g h1g,
    show clampQ 0 1 b = b from clampQ_eq_self h0b h1b]

theorem stageTempTint_neutral (w h : ℚ) (c : RGB) :
    stageTempTint (buildUniforms neutralEdits w h) c = c := by
  obtain ⟨r, g, b⟩ := c
  simp only [stageTempTint]
  rw [show (buildUniforms neutralEdits w h).temperature = 0 from rfl,
    show (buildUniforms neutralEdits w h).tint = 0 from rfl]
  norm_num

theorem stageBands_neutral (w h : ℚ) (c : RGB) :
    stageBands (buildUniforms neutralEdits w h) c = c := by
  obtain ⟨r, g, b⟩ := c
  simp only [stageBands, addRGB]
  rw [show (buildUniforms neutralEdits w h).highlights = 0 from rfl,
    show (buildUniforms neutralEdits w h).shadows = 0 from rfl,
    show (buildUniforms neutralEdits w h).whites = 0 from rfl,
    show (buildUniforms neutralEdits w h).blacks = 0 from rfl]
  norm_num

theorem stageCurve_neutral (env : ShaderEnv) (w h : ℚ) (c : RGB) :
    stageCurve env (buildUniforms neutralEdits w h) c = c := by
  simp only [stageCurve]
  rw [show (buildUniforms neutralEdits w h).curveEnabled =
    curveEnabledUniform neutralEdits.toneCurvePoints from rfl, curveEnabled_neutral]
  rw [if_neg (by norm_num)]

theorem stageHSL_neutral (w h : ℚ) (c : RGB) (h0r : 0 ≤ c.r) (h1r : c.r ≤ 1)
    (h0g : 0 ≤ c.g) (h1g : c.g ≤ 1) (h0b : 0 ≤ c.b) (h1b : c.b ≤ 1) :
    stageHSL (buildUniforms neutralEdits w h) c = c := by
  obtain ⟨r, g, b⟩ := c
  dsimp only at h0r h1r h0g h1g h0b h1b
  simp only [stageHSL]
  rw [show (buildUniforms neutralEdits w h).hslHue = (fun _ => 0) from rfl,
    show (buildUniforms neutralEdits w h).hslSat = (fun _ => 0) from rfl,
    show (buildUniforms neutralEdits w h).hslLum = (fun _ => 0) from rfl,
    show (buildUniforms neutralEdits w h).vibrance = 0 from rfl,
    show (buildUniforms neutralEdits w h).saturation = 0 from rfl]
  simp only [zero_mul, Finset.sum_const_zero, zero_div, add_zero, mul_zero, mul_one]
  rw [show clampRGB 0 1 ⟨r, g, b⟩ = ⟨r, g, b⟩ by
    simp only [clampRGB]
    rw [clampQ_eq_self h0r h1r, clampQ_eq_self h0g h1g, clampQ_eq_self h0b h1b]]
  obtain ⟨hh0, hh1, hs0, hs1, hl0, hl1⟩ := rgb2hsl_mem r g b h0r h1r h0g h1g h0b h1b
  rw [Int.fract_eq_self.mpr ⟨hh0, hh1⟩, clampQ_eq_self hl0 hl1,
    clampQ_eq_self hs0 hs1, clampQ_eq_self hs0 hs1, clampQ_eq_self hs0 hs1]
  exact hsl_roundtrip ⟨r, g, b⟩ h0r h1r h0g h1g h0b h1b

theorem stageColorGrading_neutral (w h : ℚ) (c : RGB) :
    stageColorGrading (buildUniforms neutralEdits w h) c = c := by
  simp only [stageColorGrading]
  rw [show (buildUniforms neutralEdits w h).cgShadowsSat = 0 from rfl,
    show (buildUniforms neutralEdits w h).cgMidtonesSat = 0 from rfl,
    show (buildUniforms neutralEdits w h).cgHighlightsSat = 0 from rfl]
  rw [if_neg (lt_irrefl 0), if_neg (lt_irrefl 0), if_neg (lt_irrefl 0)]

theorem stageCalibration_neutral (w h : ℚ) (c : RGB) (h0r : 0 ≤ c.r) (h1r : c.r ≤ 1)
    (h0g : 0 ≤ c.g) (h1g : c.g ≤ 1) (h0b : 0 ≤ c.b) (h1b : c.b ≤ 1) :
    stageCalibration (buildUniforms neutralEdits w h) c = c := by
  obtain ⟨r, g, b⟩ := c
  dsimp only at h0r h1r h0g h1g h0b h1b
  simp only [stageCalibration]
  rw [show (buildUniforms neutralEdits w h).calShadowsTint = 0 from rfl,
    show (buildUniforms neutralEdits w h).calRedSat = 0 from rfl,
    show (buildUniforms neutralEdits w h).calRedHue = 0 from rfl,
    show (buildUniforms neutralEdits w h).calGreenSat = 0 from rfl,
    show (buildUniforms neutralEdits w h).calGreenHue = 0 from rfl,
    show (buildUniforms neutralEdits w h).calBlueSat = 0 from rfl,
    show (buildUniforms neutralEdits w h).calBlueHue = 0 from rfl]
  simp only [zero_mul, mul_zero, sub_zero, add_zero, mul_one]
  rw [clampQ_eq_self h0r (le_trans h1r (by norm_num)),
    clampQ_eq_self h0g (le_trans h1g (by norm_num)),
    clampQ_eq_self h0b (le_trans h1b (by norm_num))]

theorem stageDehaze_neutral (w h : ℚ) (c : RGB) :
    stageDehaze (buildUniforms neutralEdits w h) c = c := by
  obtain ⟨r, g, b⟩ := c
  simp only [stageDehaze]
  rw [show (buildUniforms neutralEdits w h).dehaze = 0 from rfl]
  norm_num

theorem stageClarity_neutral (w h : ℚ) (c : RGB) :
    stageClarity (buildUniforms neutralEdits w h) c = c := by
  obtain ⟨r, g, b⟩ := c
  simp only [stageClarity]
  rw [show (buildUniforms neutralEdits w h).clarity = 0 from rfl]
  norm_num

theorem stageTexture_neutral (w h : ℚ) (c : RGB) :
    stageTexture (buildUniforms neutralEdits w h) c = c := by
  obtain ⟨r, g, b⟩ := c
  simp only [stageTexture]
  rw [show (buildUniforms neutralEdits w h).texture = 0 from rfl]
  norm_num

theorem stageSharpen_neutral (w h : ℚ) (tex : ℚ → ℚ → RGBA) (tcx tcy : ℚ)
    (texColor : RGBA) (c : RGB) :
    stageSharpen (buildUniforms neutralEdits w h) tex tcx tcy texColor c = c := by
  simp only [stageSharpen]
  rw [show (buildUniforms neutralEdits w h).sharpenAmount = 0 from rfl]
  rw [if_neg (lt_irrefl 0)]

theorem stageVignette_neutral (env : ShaderEnv) (w h : ℚ) (tcx tcy : ℚ) (c : RGB) :
    stageVignette env (buildUniforms neutralEdits w h) tcx tcy c = c := by
  simp only [stageVignette]
  rw [show (buildUniforms neutralEdits w h).vignetteAmount = 0 from rfl]
  rw [if_neg (by norm_num)]

theorem stageGrain_neutral (env : ShaderEnv) (w h : ℚ) (tcx tcy : ℚ) (c : RGB) :
    stageGrain env (buildUniforms neutralEdits w h) tcx tcy c = c := by
  simp only [stageGrain]
  rw [show (buildUniforms neutralEdits w h).grainAmount = 0 from rfl]
  rw [if_neg (lt_irrefl 0)]

/-- C3: with the all-default (neutral) `EditParameters` snapshot, the full
fragment-shader pipeline returns every input pixel unchanged (exactly, not
merely within rounding): every stage is the identity at neutral values.
`env.exp2 0 = 1` is the one fact assumed about the GPU `pow` primitive. -/
theorem shader_neutral_identity (env : ShaderEnv) (tex : ℚ → ℚ → RGBA)
    (tcx tcy w h : ℚ) (hexp : env.exp2 0 = 1)
    (h0r : 0 ≤ (tex tcx tcy).r) (h1r : (tex tcx tcy).r ≤ 1)
    (h0g : 0 ≤ (tex tcx tcy).g) (h1g : (tex tcx tcy).g ≤ 1)
    (h0b : 0 ≤ (tex tcx tcy).b) (h1b : (tex tcx tcy).b ≤ 1) :
    shaderMain env (buildUniforms neutralEdits w h) tex tcx tcy = tex tcx tcy := by
  simp only [shaderMain]
  rw [stageExposure_neutral env w h _ hexp,
    stageContrast_neutral w h _ h0r h1r h0g h1g h0b h1b,
    stageTempTint_neutral w h _, stageBands_neutral w h _,
    stageCurve_neutral env w h _,
    stageHSL_neutral w h _ h0r h1r h0g h1g h0b h1b,
    stageColorGrading_neutral w h _,
    stageCalibration_neutral w h _ h0r h1r h0g h1g h0b h1b,
    stageDehaze_neutral w h _, stageClarity_neutral w h _, stageTexture_neutral w h _,
    stageSharpen_neutral w h tex tcx tcy _ _,
    stageVignette_neutral env w h tcx tcy _, stageGrain_neutral env w h tcx tcy _]
  rw [show clampRGB 0 1 ⟨(tex tcx tcy).r, (tex tcx tcy).g, (tex tcx tcy).b⟩ =
      ⟨(tex tcx tcy).r, (tex tcx tcy).g, (tex tcx tcy).b⟩ by
    simp only [clampRGB]
    rw [clampQ_eq_self h0r h1r, clampQ_eq_self h0g h1g, clampQ_eq_self h0b h1b]]

/-- C3 witness: the neutral-identity theorem applied to a concrete
environment and a concrete mid-grey-ish pixel. -/
theorem shader_neutral_identity_witness :
    shaderMain ⟨fun _ => 1, fun _ _ => 0, fun _ _ => 0, id, id, id⟩
      (buildUniforms neutralEdits 100 100) (fun _ _ => ⟨1/2, 1/3, 1/4, 1⟩) 0 0 =
      ⟨1/2, 1/3, 1/4, 1⟩ :=
  shader_neutral_identity ⟨fun _ => 1, fun _ _ => 0, fun _ _ => 0, id, id, id⟩
    (fun _ _ => ⟨1/2, 1/3, 1/4, 1⟩) 0 0 100 100 rfl
    (by norm_num) (by norm_num) (by norm_num) (by norm_num) (by norm_num) (by norm_num)

/-! ## Renderer control flow (`render`, `renderWithMasks`) -/

/-- The per-mask delta fields `combineEdits` reads from
`mask.adjustments`. -/
structure MaskAdjust where
  exposure : ℚ
  contrast : ℚ
  highlights : ℚ
  shadows : ℚ
  whites : ℚ
  blacks : ℚ
  temperature : ℚ
  tint : ℚ
  clarity : ℚ
  dehaze : ℚ
  saturation : ℚ
  sharpness : ℚ

instance : Inhabited MaskAdjust := ⟨⟨0, 0, 0, 0, 0, 0, 0, 0, 0, 0, 0, 0⟩⟩

/-- One entry of the `masks` argument of `renderWithMasks`. -/
structure MaskEntry where
  enabled : Bool
  adjustments : MaskAdjust

instance : Inhabited MaskEntry := ⟨⟨false, default⟩⟩

/-- What one call observably draws: nothing, one shader pass with the
given edits, or the multi-pass mask pipeline with the per-mask combined
edit layers. -/
inductive RenderOutcome where
  | noop : RenderOutcome
  | singlePass : EditParams → RenderOutcome
  | multiPass : EditParams → List EditParams → RenderOutcome

/-- A JS runtime failure a call could raise (dereferencing a null
`this.gl!` member). -/
inductive JsErr where
  | nullDeref : JsErr

/-- The renderer's cached GPU state.  `glPresent = false` describes an
object whose constructor would have thrown `WebGL not supported`;
`blendCompiles` / `drawCompiles` say whether the driver accepts the
lazily compiled programs; the remaining fields model the FBO pool. -/
structure RendererState where
  glPresent : Bool
  contextLost : Bool
  programOk : Bool
  imageLoaded : Bool
  blendCompiles : Bool
  drawCompiles : Bool
  blendProgram : Bool
  drawProgram : Bool
  fboCount : ℕ
  fboW : ℕ
  fboH : ℕ
  canvasW : ℕ
  canvasH : ℕ

/-- `render(edits)`: four guards (no GL, no program, no image, context
lost), each a logged early return, then one shader pass to screen. -/
def render (s : RendererState) (e : EditParams) : Except JsErr RenderOutcome :=
  if ¬ s.glPresent then .ok .noop
  else if ¬ s.programOk then .ok .noop
  else if ¬ s.imageLoaded then .ok .noop
  else if s.contextLost then .ok .noop
  else .ok (.singlePass e)

/-- The `masks.forEach` loop collecting indices with
`m.enabled && maskCanvases[i]`. -/
def enabledIdxs (masks : List MaskEntry) (canvases : List Bool) : List ℕ :=
  (List.range masks.length).filter
    (fun i => (masks.getD i default).enabled && canvases.getD i false)

/-- `if (maskAdj[key]) combined[key] = (combined[key] || 0) + maskAdj[key]`:
a delta is added only when JS-truthy (nonzero). -/
def addIfSet (g d : ℚ) : ℚ := if d ≠ 0 then g + d else g

/-- `combineEdits(global, maskAdj)`: field-wise accumulation of the listed
deltas; `sharpness` folds into `sharpening.amount`. -/
def combineEdits (g : EditParams) (adj : MaskAdjust) : EditParams :=
  { g with
    exposure := addIfSet g.exposure adj.exposure
    contrast := addIfSet g.contrast adj.contrast
    highlights := addIfSet g.highlights adj.highlights
    shadows := addIfSet g.shadows adj.shadows
    whites := addIfSet g.whites adj.whites
    blacks := addIfSet g.blacks adj.blacks
    temperature := addIfSet g.temperature adj.temperature
    tint := addIfSet g.tint adj.tint
    clarity := addIfSet g.clarity adj.clarity
    dehaze := addIfSet g.dehaze adj.dehaze
    saturation := addIfSet g.saturation adj.saturation
    sharpenAmount :=
      if adj.sharpness ≠ 0 then g.sharpenAmount + adj.sharpness else g.sharpenAmount }

/-- `ensureFBOs`: reuse the pool when dimensions and count match;
otherwise recreate it — `createFBO` dereferences `this.gl!`, which is a
runtime error if the GL member were null. -/
def ensureFBOs (s : RendererState) : Except JsErr RendererState :=
  if s.canvasW = s.fboW ∧ s.canvasH = s.fboH ∧ s.fboCount = 3 then .ok s
  else if ¬ s.glPresent then .error .nullDeref
  else .ok { s with fboCount := 3, fboW := s.canvasW, fboH := s.canvasH }

/-- `ensureBlendProgram`: lazily compile once; silently keep `null` when
the driver rejects it. -/
def ensureBlendProgram (s : RendererState) : RendererState :=
  if s.blendProgram then s
  else if s.blendCompiles then { s with blendProgram := true } else s

/-- `ensureDrawProgram`, same shape. -/
def ensureDrawProgram (s : RendererState) : RendererState :=
  if s.drawProgram then s
  else if s.drawCompiles then { s with drawProgram := true } else s

/-- `renderWithMasks(edits, masks, maskCanvases)`: guard, fast path when
no enabled mask has a canvas, fallback to `render` when the compositing
infrastructure is unavailable, else the ping-pong accumulation pipeline. -/
def renderWithMasks (s : RendererState) (e : EditParams)
    (masks : List MaskEntry) (canvases : List Bool) : Except JsErr RenderOutcome :=
  if ¬ (s.programOk ∧ s.imageLoaded) then .ok .noop
  else
    let idxs := enabledIdxs masks canvases
    if idxs.length = 0 then render s e
    else
      match ensureFBOs s with
      | .error err => .error err
      | .ok s1 =>
          let s2 := ensureDrawProgram (ensureBlendProgram s1)
          if ¬ s2.blendProgram ∨ ¬ s2.drawProgram ∨ s2.fboCount < 3 then render s2 e
          else .ok (.multiPass e
            (idxs.map (fun i => combineEdits e (masks.getD i default).adjustments)))

/-- "This call completed without a JS exception". -/
def callOk (x : Except JsErr RenderOutcome) : Prop := ∃ o, x = .ok o

/-- C4: with no enabled mask (in particular the empty list),
`renderWithMasks` produces exactly the result of the single-pass
`render`. -/
theorem render_noop_of_missing (s : RendererState) (e : EditParams)
    (h : ¬ (s.programOk = true ∧ s.imageLoaded = true)) : render s e = .ok .noop := by
  unfold render
  by_cases hgl : s.glPresent = true
  · rw [if_neg (by simp [hgl])]
    by_cases hpo : s.programOk = true
    · rw [if_neg (by simp [hpo]), if_pos (show ¬ s.imageLoaded = true by tauto)]
    · rw [if_pos hpo]
  · rw [if_pos hgl]

theorem renderWithMasks_no_masks (s : RendererState) (e : EditParams)
    (masks : List MaskEntry) (canvases : List Bool)
    (hnone : ∀ m ∈ masks, m.enabled = false) :
    renderWithMasks s e masks canvases = render s e := by
  have hidx : enabledIdxs masks canvases = [] := by
    unfold enabledIdxs
    rw [List.filter_eq_nil_iff]
    intro i _
    rw [Bool.and_eq_true]
    rintro ⟨h1, -⟩
    rcases lt_or_ge i masks.length with hlt | hge
    · rw [List.getD_eq_getElem?_getD, List.getElem?_eq_getElem hlt,
        Option.getD_some] at h1
      have h2 := hnone _ (List.getElem_mem hlt)
      rw [h2] at h1
      exact Bool.false_ne_true h1
    · rw [List.getD_eq_getElem?_getD, List.getElem?_eq_none (by omega)] at h1
      exact Bool.false_ne_true h1
  unfold renderWithMasks
  rw [hidx]
  by_cases hguard : s.programOk = true ∧ s.imageLoaded = true
  · rw [if_neg (not_not_intro hguard)]
    rfl
  · rw [if_pos hguard, render_noop_of_missing s e hguard]

/-- C4 witness: the fast path evaluated at a concrete ready state and the
empty mask list. -/
theorem renderWithMasks_no_masks_witness :
    renderWithMasks ⟨true, false, true, true, true, true, false, false, 0, 0, 0, 8, 6⟩
        neutralEdits [] [] =
      render ⟨true, false, true, true, true, true, false, false, 0, 0, 0, 8, 6⟩
        neutralEdits :=
  renderWithMasks_no_masks _ _ [] [] (fun m hm => absurd hm (List.not_mem_nil m))

theorem ensureFBOs_ok (s : RendererState) (hgl : s.glPresent = true) :
    ∃ s2, ensureFBOs s = .ok s2 := by
  unfold ensureFBOs
  by_cases h1 : s.canvasW = s.fboW ∧ s.canvasH = s.fboH ∧ s.fboCount = 3
  · rw [if_pos h1]
    exact ⟨s, rfl⟩
  · rw [if_neg h1, if_neg (by simp [hgl])]
    exact ⟨_, rfl⟩

theorem render_callOk (s : RendererState) (e : EditParams) : callOk (render s e) := by
  unfold render
  split_ifs <;> exact ⟨_, rfl⟩

/-- C9: `render`/`renderWithMasks` never raise when resources are missing:
with no GL context `render` no-ops; for any constructed renderer (GL
present — the constructor throws otherwise) both calls complete; a missing
program or image yields a no-op frame from either entry point; and once
every prerequisite holds, the same call draws the single pass. -/
theorem render_missing_resources_noop (s : RendererState) (e : EditParams)
    (masks : List MaskEntry) (canvases : List Bool) :
    (s.glPresent = false → render s e = .ok .noop) ∧
    (s.glPresent = true →
      callOk (render s e) ∧ callOk (renderWithMasks s e masks canvases)) ∧
    (s.programOk = false ∨ s.imageLoaded = false →
      render s e = .ok .noop ∧ renderWithMasks s e masks canvases = .ok .noop) ∧
    (s.glPresent = true → s.programOk = true → s.imageLoaded = true →
      s.contextLost = false → render s e = .ok (.singlePass e)) := by
  refine ⟨?_, ?_, ?_, ?_⟩
  · intro h
    unfold render
    rw [if_pos (by simp [h])]
  · intro hgl
    refine ⟨render_callOk s e, ?_⟩
    unfold renderWithMasks
    by_cases h1 : s.programOk = true ∧ s.imageLoaded = true
    · rw [if_neg (not_not_intro h1)]
      by_cases h2 : (enabledIdxs masks canvases).length = 0
      · rw [if_pos h2]
        exact render_callOk s e
      · rw [if_neg h2]
        obtain ⟨s2, hs2⟩ := ensureFBOs_ok s hgl
        rw [hs2]
        dsimp only
        split_ifs
        · exact render_callOk _ e
        · exact ⟨_, rfl⟩
    · rw [if_pos h1]
      exact ⟨_, rfl⟩
  · intro hmiss
    have hguard : ¬ (s.programOk = true ∧ s.imageLoaded = true) := by
      rcases hmiss with h | h <;> simp [h]
    refine ⟨render_noop_of_missing s e hguard, ?_⟩
    unfold renderWithMasks
    rw [if_pos hguard]
  · intro hgl hprog himg hlost
    unfold render
    rw [if_neg (by simp [hgl]), if_neg (by simp [hprog]), if_neg (by simp [himg]),
      if_neg (by simp [hlost])]

/-- C9 witness: the ready-state conjunct applied at a concrete state. -/
theorem render_missing_resources_noop_witness :
    render ⟨true, false, true, true, true, true, false, false, 0, 0, 0, 8, 6⟩ neutralEdits =
      .ok (.singlePass neutralEdits) :=
  (render_missing_resources_noop
    ⟨true, false, true, true, true, true, false, false, 0, 0, 0, 8, 6⟩
    neutralEdits [] []).2.2.2 rfl rfl rfl rfl

/-! ## Mask rasterizer (`MaskRasterizer.ts`), per pixel -/

/-- One sampled point of a brush stroke. -/
structure BrushPoint where
  x : ℚ
  y : ℚ
  pressure : ℚ

/-- One brush stroke (`BrushStroke` in the mask store). -/
structure BrushStroke where
  points : List BrushPoint
  size : ℚ
  feather : ℚ
  flow : ℚ
  erase : Bool

/-- `LinearGradientData`. -/
structure LinearGradientData where
  startX : ℚ
  startY : ℚ
  endX : ℚ
  endY : ℚ

/-- `RadialGradientData`. -/
structure RadialGradientData where
  centerX : ℚ
  centerY : ℚ
  radiusX : ℚ
  radiusY : ℚ
  feather : ℚ
  invert : Bool

/-- The luminosity-range tag. -/
inductive LumRange where
  | highlights : LumRange
  | midtones : LumRange
  | shadows : LumRange

/-- `LuminosityData`. -/
structure LuminosityData where
  range : LumRange
  threshold : ℚ
  feather : ℚ

/-- The `switch (mask.type)` dispatch of `rasterize`. -/
inductive MaskShape where
  | brush : List BrushStroke → MaskShape
  | linearGradient : LinearGradientData → MaskShape
  | radialGradient : RadialGradientData → MaskShape
  | luminosity : LuminosityData → MaskShape

/-- A mask as `rasterize` reads it: its geometry and its opacity. -/
structure MaskDef where
  shape : MaskShape
  opacity : ℚ

/-- Canvas radial-gradient falloff of one brush stamp: full strength
inside `radius·(1−feather)`, linear to 0 at `radius`. -/
def stampRamp (radius featherRatio dist : ℚ) : ℚ :=
  let inner := radius * (1 - featherRatio)
  if dist ≤ inner then 1
  else if dist < radius then 1 - (dist - inner) / (radius - inner)
  else 0

/-- Source alpha of one erase-stroke stamp
(`rgba(255,255,255,alphaVal)` → transparent); `sq` abstracts the
Euclidean norm of the offset. -/
def stampAlpha (sq : ℚ → ℚ) (scX scY : ℚ) (stroke : BrushStroke) (pt : BrushPoint)
    (px py : ℚ) : ℚ :=
  let radius := stroke.size / 2 * scX
  let featherRatio := max 0 (min 1 (stroke.feather / 100))
  let alphaVal := min 1 (max 0 (pt.pressure * (stroke.flow / 100)))
  let dist := sq ((px - pt.x * scX) ^ 2 + (py - pt.y * scY) ^ 2)
  alphaVal * stampRamp radius featherRatio dist

/-- Painted grey of one non-erase stamp: the stop colour is the byte
`round(alphaVal·255)`, falling to black across the ramp (canvas scale
`[0,1]`). -/
def stampPaint (sq : ℚ → ℚ) (scX scY : ℚ) (stroke : BrushStroke) (pt : BrushPoint)
    (px py : ℚ) : ℚ :=
  let radius := stroke.size / 2 * scX
  let featherRatio := max 0 (min 1 (stroke.feather / 100))
  let alphaVal := min 1 (max 0 (pt.pressure * (stroke.flow / 100)))
  let dist := sq ((px - pt.x * scX) ^ 2 + (py - pt.y * scY) ^ 2)
  ((jsRound (alphaVal * 255) : ℚ) / 255) * stampRamp radius featherRatio dist

/-- One stroke over the running canvas value:
`globalCompositeOperation = 'lighter'` adds with saturation at white,
`'destination-out'` multiplies by `1 − srcAlpha` — per sampled point. -/
def applyStroke (sq : ℚ → ℚ) (scX scY : ℚ) (stroke : BrushStroke) (px py : ℚ)
    (v : ℚ) : ℚ :=
  stroke.points.foldl
    (fun acc pt =>
      if stroke.erase then acc * (1 - stampAlpha sq scX scY stroke pt px py)
      else min 1 (acc + stampPaint sq scX scY stroke pt px py))
    v

/-- `rasterizeBrush` at one pixel: canvas cleared to black, strokes in
append order. -/
def brushValue (sq : ℚ → ℚ) (strokes : List BrushStroke) (w h iw ih px py : ℚ) : ℚ :=
  let scX := w / max iw 1
  let scY := h / max ih 1
  strokes.foldl (fun v stroke => applyStroke sq scX scY stroke px py v) 0

/-- `rasterizeLinearGradient` at one pixel: white→black along the
projection onto the gradient axis, pad extension outside. -/
def linearValue (d : LinearGradientData) (w h px py : ℚ) : ℚ :=
  let x0 := d.startX * w
  let y0 := d.startY * h
  let x1 := d.endX * w
  let y1 := d.endY * h
  let len2 := (x1 - x0) ^ 2 + (y1 - y0) ^ 2
  let u := if len2 = 0 then 0
    else ((px - x0) * (x1 - x0) + (py - y0) * (y1 - y0)) / len2
  1 - clamp01 u

/-- Colour-stop ramp of the non-inverted radial gradient,
`[(0,white),(s1,white),(1,black)]`, pad-extended. -/
def radialRampNormal (s1 u : ℚ) : ℚ :=
  if u ≤ s1 then 1 else if u < 1 then 1 - (u - s1) / (1 - s1) else 0

/-- Colour-stop ramp of the inverted radial gradient,
`[(0,black),(s1,black),(1,white)]`, pad-extended. -/
def radialRampInvert (s1 u : ℚ) : ℚ :=
  if u ≤ s1 then 0 else if u < 1 then (u - s1) / (1 - s1) else 1

/-- `rasterizeRadialGradient` at one pixel; the `ctx.scale(1, ry/rx)`
ellipse transform maps the pixel back into gradient space. -/
def radialValue (sq : ℚ → ℚ) (d : RadialGradientData) (w h px py : ℚ) : ℚ :=
  let cx := d.centerX * w
  let cy := d.centerY * h
  let rx := d.radiusX * w
  let ry := d.radiusY * h
  let r := max rx ry
  let featherAmt := max 0.01 (d.feather / 100)
  let s1 := max 0 (1 - featherAmt)
  let py2 := if rx ≠ ry ∧ 0 < rx ∧ 0 < ry then cy + (py - cy) * (rx / ry) else py
  let u := sq ((px - cx) ^ 2 + (py2 - cy) ^ 2) / r
  if d.invert then radialRampInvert s1 u else radialRampNormal s1 u

/-- Canvas 4-stop ramp `[(0,a),(q1,a),(q2,b),(1,b)]` (coincident middle
stops degenerate on a measure-zero set none of the claims touch). -/
def ramp4 (q1 q2 a b u : ℚ) : ℚ :=
  if u ≤ q1 then a else if u < q2 then a + (b - a) * ((u - q1) / (q2 - q1)) else b

/-- `rasterizeLuminosity` (the horizontal-gradient placeholder used when
no rendered pixel source exists) at one pixel. -/
def lumPlaceholderValue (d : LuminosityData) (w px : ℚ) : ℚ :=
  let t := d.threshold / 100
  let f := d.feather / 100
  let u := px / w
  match d.range with
  | .highlights => ramp4 (max 0 (t - f)) (min 1 (t + f)) 0 1 u
  | .shadows => ramp4 (max 0 (1 - t - f)) (min 1 (1 - t + f)) 1 0 u
  | .midtones =>
      if u ≤ 0 then 0
      else if u < 0.3 then u / 0.3
      else if u ≤ 0.7 then 1
      else if u < 1 then (1 - u) / 0.3
      else 0

/-- The shape dispatch of `rasterize` at one pixel. -/
def shapeValue (sq : ℚ → ℚ) (shape : MaskShape) (w h iw ih px py : ℚ) : ℚ :=
  match shape with
  | .brush strokes => brushValue sq strokes w h iw ih px py
  | .linearGradient d => linearValue d w h px py
  | .radialGradient d => radialValue sq d w h px py
  | .luminosity d => lumPlaceholderValue d w px

/-- `MaskRasterizer.rasterize` at one pixel (canvas scale `[0,1]`): draw
the shape, then — when `opacity < 100` — `destination-in` with
`rgba(255,255,255,opacity/100)`, which multiplies the canvas by it. -/
def rasterizeValue (sq : ℚ → ℚ) (m : MaskDef) (w h iw ih px py : ℚ) : ℚ :=
  let v := shapeValue sq m.shape w h iw ih px py
  if m.opacity < 100 then v * (m.opacity / 100) else v

/-- Per-pixel alpha of `rasterizeLuminosityFromImage` before rounding
(source channels are bytes 0–255, Rec. 709 weights). -/
def lumImageAlpha (d : LuminosityData) (pr pg pb : ℚ) : ℚ :=
  let lum := (pr * 0.2126 + pg * 0.7152 + pb * 0.0722) / 255
  let t := d.threshold / 100
  let f := max (d.feather / 100) 0.01
  match d.range with
  | .highlights => smoothstepG (t - f) (t + f) lum
  | .shadows => 1 - smoothstepG ((1 - t) - f) ((1 - t) + f) lum
  | .midtones =>
      smoothstepG ((0.5 - t * 0.5) - f) ((0.5 - t * 0.5) + f) lum *
        (1 - smoothstepG ((0.5 + t * 0.5) - f) ((0.5 + t * 0.5) + f) lum)

/-- `rasterizeLuminosityFromImage` at one pixel: the byte
`round(clamp01(alpha)·255)`, then the same `destination-in` opacity
multiply. -/
def lumFromImageValue (d : LuminosityData) (opacity pr pg pb : ℚ) : ℚ :=
  let val := (jsRound (clamp01 (lumImageAlpha d pr pg pb) * 255) : ℚ)
  if opacity < 100 then val * (opacity / 100) else val

/-- C6: for both rasterizers, the alpha at opacity `o ∈ [0,100]` is the
alpha at opacity 100 scaled by `o/100`, at every pixel of every mask. -/
theorem mask_opacity_scaling (sq : ℚ → ℚ) (m : MaskDef) (w h iw ih px py o : ℚ)
    (d : LuminosityData) (pr pg pb : ℚ) (h0 : 0 ≤ o) (h1 : o ≤ 100) :
    rasterizeValue sq { m with opacity := o } w h iw ih px py =
      rasterizeValue sq { m with opacity := 100 } w h iw ih px py * (o / 100) ∧
    lumFromImageValue d o pr pg pb = lumFromImageValue d 100 pr pg pb * (o / 100) := by
  have key : ∀ v : ℚ, (if o < 100 then v * (o / 100) else v) =
      (if (100:ℚ) < 100 then v * ((100:ℚ) / 100) else v) * (o / 100) := by
    intro v
    rw [if_neg (lt_irrefl (100:ℚ))]
    rcases lt_or_eq_of_le h1 with hlt | heq
    · rw [if_pos hlt]
    · rw [heq, if_neg (lt_irrefl (100:ℚ))]
      norm_num
  exact ⟨key _, key _⟩

/-- C6 witness: opacity 50 versus 100 on a concrete radial mask pixel. -/
theorem mask_opacity_scaling_witness :
    rasterizeValue (fun _ => 0) ⟨.radialGradient ⟨0, 0, 1, 1, 50, false⟩, 50⟩ 4 4 4 4 1 1 =
      rasterizeValue (fun _ => 0) ⟨.radialGradient ⟨0, 0, 1, 1, 50, false⟩, 100⟩ 4 4 4 4 1 1 *
        (50 / 100) :=
  (mask_opacity_scaling (fun _ => 0) ⟨.radialGradient ⟨0, 0, 1, 1, 50, false⟩, 50⟩
    4 4 4 4 1 1 50 ⟨.highlights, 50, 50⟩ 0 0 0 (by norm_num) (by norm_num)).1

/-- The two radial stop lists are pointwise complementary. -/
theorem radialRamp_complement (s1 u : ℚ) :
    radialRampInvert s1 u + radialRampNormal s1 u = 1 := by
  unfold radialRampInvert radialRampNormal
  split_ifs with h1 h2
  · norm_num
  · ring
  · norm_num

/-- C7: at identical geometry, the inverted and non-inverted radial alpha
rasters (bytes, 255·value) sum to 255 at every pixel. -/
theorem radial_invert_complementary (sq : ℚ → ℚ) (d : RadialGradientData)
    (w h px py : ℚ) :
    radialValue sq { d with invert := true } w h px py * 255 +
      radialValue sq { d with invert := false } w h px py * 255 = 255 := by
  simp only [radialValue]
  rw [if_pos trivial, if_neg Bool.false_ne_true]
  have := radialRamp_complement
    (max 0 (1 - max 0.01 (d.feather / 100)))
    (sq ((px - d.centerX * w) ^ 2 +
      ((if d.radiusX * w ≠ d.radiusY * h ∧ 0 < d.radiusX * w ∧ 0 < d.radiusY * h then
          d.centerY * h + (py - d.centerY * h) * (d.radiusX * w / (d.radiusY * h))
        else py) - d.centerY * h) ^ 2) / max (d.radiusX * w) (d.radiusY * h))
  linarith

/-- Erase folds multiply the running value by every `1 − srcAlpha`. -/
theorem foldl_mul_factors (f : BrushPoint → ℚ) (pts : List BrushPoint) (v : ℚ) :
    pts.foldl (fun acc pt => acc * (1 - f pt)) v =
      v * (pts.map (fun pt => 1 - f pt)).prod := by
  induction pts generalizing v with
  | nil => simp
  | cons p ps ih =>
      simp only [List.foldl_cons, List.map_cons, List.prod_cons]
      rw [ih]
      ring

/-- A full-strength paint stroke covering the origin. -/
def paintFull : BrushStroke := ⟨[⟨0, 0, 1⟩], 10, 0, 100, false⟩

/-- The same stamp as an erase stroke. -/
def eraseFull : BrushStroke := { paintFull with erase := true }

/-- C8: appending an erase stroke with a fully covering stamp
(`srcAlpha = 1` at the pixel) drives the brush alpha to exactly 0 there,
whatever the prior strokes accumulated; and the converse fails — an
earlier erase does not remove a later paint stroke (concrete instance:
erase-then-paint leaves alpha 1). -/
theorem brush_erase_dominance :
    (∀ (sq : ℚ → ℚ) (prior : List BrushStroke) (E : BrushStroke) (w h iw ih px py : ℚ),
      E.erase = true →
      (∃ pt ∈ E.points, stampAlpha sq (w / max iw 1) (h / max ih 1) E pt px py = 1) →
      brushValue sq (prior ++ [E]) w h iw ih px py = 0) ∧
    brushValue (fun _ => 0) [eraseFull, paintFull] 1 1 1 1 0 0 = 1 := by
  constructor
  · intro sq prior E w h iw ih px py hE ⟨pt, hmem, hone⟩
    unfold brushValue
    rw [List.foldl_append]
    simp only [List.foldl_cons, List.foldl_nil]
    unfold applyStroke
    simp only [hE, if_true]
    rw [foldl_mul_factors]
    rw [List.prod_eq_zero (List.mem_map.mpr ⟨pt, hmem, by rw [hone]; ring⟩)]
    ring
  · unfold brushValue applyStroke
    simp only [List.foldl_cons, List.foldl_nil]
    unfold eraseFull paintFull
    simp only [List.foldl_cons, List.foldl_nil]
    norm_num [stampAlpha, stampPaint, stampRamp, jsRound]

/-- C8 witness: the dominance part applied to one concrete erase stroke
after one concrete paint stroke. -/
theorem brush_erase_dominance_witness :
    brushValue (fun _ => 0) ([paintFull] ++ [eraseFull]) 1 1 1 1 0 0 = 0 :=
  brush_erase_dominance.1 (fun _ => 0) [paintFull] eraseFull 1 1 1 1 0 0 rfl
    ⟨⟨0, 0, 1⟩, by norm_num [eraseFull, paintFull],
      by norm_num [stampAlpha, stampRamp, eraseFull, paintFull]⟩

end Lumora
